import Mathlib

/-
Verification of the update orchestration engine of the `up` container
auto-updater.  The Go sources are shallowly embedded: pure helpers become
Lean functions; every call the engine makes against the container daemon is
modelled through an explicit oracle (`Engine`) together with a trace of the
attempted API calls, so that ordering and effect claims can be stated about
arbitrary daemon behaviours.  String primitives are implemented over the
character list of the string so that all definitions evaluate inside the
kernel.
-/

namespace Up

/-- Tests whether the first list is a leading segment of the second
(Go strings.HasPrefix on character lists). -/
def listLeads (pat s : List Char) : Bool :=
  match pat, s with
  | [], _ => true
  | _ :: _, [] => false
  | p :: ps, c :: cs => p == c && listLeads ps cs

/-- Go strings.Contains on character lists. -/
def listHasSub (s pat : List Char) : Bool :=
  match s with
  | [] => pat.isEmpty
  | _ :: rest => listLeads pat s || listHasSub rest pat

/-- Go strings.Contains. -/
def strContains (s pat : String) : Bool :=
  listHasSub s.data pat.data

/-- Go strings.HasPrefix. -/
def strStartsWith (s pat : String) : Bool :=
  listLeads pat.data s.data

/-- Lowercasing as Go strings.ToLower performs it on ASCII messages. -/
def strToLower (s : String) : String :=
  String.mk (s.data.map Char.toLower)

/-- Splits a character list at the first occurrence of the separator
character, returning the parts before and after it. -/
def cutAtChar (sep : Char) : List Char → Option (List Char × List Char)
  | [] => none
  | x :: xs =>
    if x == sep then some ([], xs)
    else
      match cutAtChar sep xs with
      | some (a, b) => some (x :: a, b)
      | none => none

/-- Go strings.Cut with a one-character separator (part_003 line 107 uses
separator "="): before, after, and whether the separator occurred. -/
def stringsCut1 (s : String) (sep : Char) : String × String × Bool :=
  match cutAtChar sep s.data with
  | some (a, b) => (String.mk a, String.mk b, true)
  | none => (s, "", false)

/-- First-match association lookup, modelling a Go map read. -/
def assocLookup {α : Type} (m : List (String × α)) (k : String) : Option α :=
  match m with
  | [] => none
  | (k2, v) :: rest => if k2 == k then some v else assocLookup rest k

/-- Go strings.TrimPrefix for the single prefix "/" (part_003 line 122). -/
def trimSlash (name : String) : String :=
  if strStartsWith name "/" then String.mk (name.data.drop 1) else name

/-- shortID from internal/app: trim the sha256: prefix, keep 12 chars. -/
def shortID (id : String) : String :=
  let id2 := if strStartsWith id "sha256:" then String.mk (id.data.drop 7) else id
  if id2.data.length > 12 then String.mk (id2.data.take 12) else id2

/-- shortName from internal/app. -/
def shortName (name : String) : String :=
  if name == "" then "<noname>" else trimSlash name

/-- Go strings.TrimSpace on the character list. -/
def trimWs (l : List Char) : List Char :=
  ((l.dropWhile Char.isWhitespace).reverse.dropWhile Char.isWhitespace).reverse

/-- Go strings.TrimSpace. -/
def strTrim (s : String) : String :=
  String.mk (trimWs s.data)

/- ------------------------------------------------------------------ -/
/- Credential resolver (src/cmd/auth.go).                              -/
/- ------------------------------------------------------------------ -/

/-- registry.AuthConfig as consumed by the resolver. -/
structure AuthConfig where
  username : String
  password : String
  serverAddress : String
deriving DecidableEq

/-- dockerAuthIndex: the credential store keyed by server strings. -/
def AuthIndex : Type := List (String × AuthConfig)

/-- authconfig.Encode: serialises the credential into the transport token.
For a struct of plain strings the Go encoder (JSON then base64) never
fails, so it is modelled as a total injective encoding. -/
def authconfigEncode (a : AuthConfig) : String :=
  "auth:" ++ a.username ++ ":" ++ a.password ++ "@" ++ a.serverAddress

/-- normalizeRegistryKey: TrimRight(TrimSpace(s), "/"). -/
def normalizeRegistryKey (s : String) : String :=
  String.mk (((trimWs s.data).reverse.dropWhile (fun c => c == '/')).reverse)

/-- registryFromImageRef (auth.go lines 74 to 86): the first path segment is
the registry host iff it contains a dot or a colon or equals localhost,
otherwise the default public registry applies. -/
def registryFromImageRef (ref : String) : String :=
  let first :=
    match cutAtChar '/' ref.data with
    | some (a, _) => String.mk a
    | none => ref
  if first.data.contains '.' || first.data.contains ':' || first == "localhost" then first
  else "index.docker.io"

/-- Loop body of registryAuthForImageRef (auth.go lines 62 to 71): return
the encoded token of the first candidate key present in the index. -/
def findCandidate (idx : AuthIndex) (cands : List String) : String × Bool :=
  match cands with
  | [] => ("", false)
  | k :: rest =>
    match assocLookup idx k with
    | some ac => (authconfigEncode ac, true)
    | none => findCandidate idx rest

/-- registryAuthForImageRef (auth.go lines 51 to 72). -/
def registryAuthForImageRef (idx : AuthIndex) (imageRef : String) : String × Bool :=
  let reg := registryFromImageRef imageRef
  findCandidate idx
    [ normalizeRegistryKey reg,
      normalizeRegistryKey ("https://" ++ reg),
      normalizeRegistryKey ("https://" ++ reg ++ "/v1/"),
      normalizeRegistryKey "https://index.docker.io/v1/" ]

/-- Registry host derivation as the claim words it: the first path segment
before the slash (all characters up to the first slash) is the registry iff
it contains a dot or a colon or equals localhost, otherwise the default
public registry index.docker.io. -/
def specRegistryHost (ref : String) : String :=
  let first := String.mk (ref.data.takeWhile (fun c => !(c == '/')))
  if first.data.contains '.' || first.data.contains ':' || first == "localhost" then first
  else "index.docker.io"

/-- Credential resolution as the claim words it: try exactly four candidate
keys in order (bare host, https host, https host /v1/, legacy public
registry key), each normalized, and return the encoded token of the first
candidate present in the index; found=false when none matches. -/
def specResolveFor (idx : AuthIndex) (ref : String) : String × Bool :=
  let host := specRegistryHost ref
  let cands :=
    [ normalizeRegistryKey host,
      normalizeRegistryKey ("https://" ++ host),
      normalizeRegistryKey ("https://" ++ host ++ "/v1/"),
      normalizeRegistryKey "https://index.docker.io/v1/" ]
  match cands.find? (fun k => (assocLookup idx k).isSome) with
  | some k =>
    match assocLookup idx k with
    | some ac => (authconfigEncode ac, true)
    | none => ("", false)
  | none => ("", false)

theorem findCandidate_eq_find (idx : AuthIndex) (cands : List String) :
    findCandidate idx cands =
      match cands.find? (fun k => (assocLookup idx k).isSome) with
      | some k =>
        match assocLookup idx k with
        | some ac => (authconfigEncode ac, true)
        | none => ("", false)
      | none => ("", false) := by
  induction cands with
  | nil => rfl
  | cons k rest ih =>
    cases h : assocLookup idx k with
    | some ac =>
      simp [findCandidate, h, List.find?_cons, Option.isSome]
    | none =>
      simp [findCandidate, h, List.find?_cons, Option.isSome, ih]

theorem cutAtChar_before (sep : Char) (l : List Char) :
    (match cutAtChar sep l with
     | some (a, _) => a
     | none => l) = l.takeWhile (fun c => !(c == sep)) := by
  induction l with
  | nil => rfl
  | cons x xs ih =>
    by_cases hx : x == sep
    · simp [cutAtChar, hx, List.takeWhile_cons, hx]
    · simp only [cutAtChar, hx, if_false, Bool.false_eq_true, List.takeWhile_cons]
      simp only [hx, Bool.not_false, if_true]
      cases h : cutAtChar sep xs with
      | none => simpa [h] using ih
      | some p =>
        cases p with
        | mk a b => simpa [h] using ih

theorem registryFromImageRef_eq_spec (ref : String) :
    registryFromImageRef ref = specRegistryHost ref := by
  unfold registryFromImageRef specRegistryHost
  have h := cutAtChar_before '/' ref.data
  cases hc : cutAtChar '/' ref.data with
  | none =>
    rw [hc] at h
    simp only [hc]
    rw [← h]
  | some p =>
    cases p with
    | mk a b =>
      rw [hc] at h
      simp only [hc]
      rw [← h]

/-- C3: for every image reference, credential resolution derives the
registry host by the first-segment rule and then tries exactly the four
normalized candidate keys in order, returning the encoded token of the
first candidate present in the index with found=true, and found=false when
no candidate matches. -/
theorem claim_c3_credential_resolution (idx : AuthIndex) (imageRef : String) :
    registryAuthForImageRef idx imageRef = specResolveFor idx imageRef := by
  unfold registryAuthForImageRef specResolveFor
  rw [registryFromImageRef_eq_spec]
  exact findCandidate_eq_find idx _

/- ------------------------------------------------------------------ -/
/- Data model of the inspected container (moby api types, used fields). -/
/- ------------------------------------------------------------------ -/

/-- container.HostConfig, restricted to the fields the engine reads. -/
structure HostConfig where
  networkMode : String
  publishAllPorts : Bool
  portBindings : List (String × List String)
deriving DecidableEq

/-- container.HealthConfig; only its presence is inspected. -/
structure HealthcheckConfig where
  test : List String
deriving DecidableEq

/-- container.Config, restricted to the fields the engine reads. -/
structure ContainerConfig where
  image : String
  labels : Option (List (String × String))
  healthcheck : Option HealthcheckConfig
deriving DecidableEq

/-- container.Health: the current health status string. -/
structure HealthState where
  status : String
deriving DecidableEq

/-- container.State, restricted to the health field. -/
structure ContainerState where
  health : Option HealthState
deriving DecidableEq

/-- container.InspectResponse (fields read by part_003): id, name, the
image identity recorded for the container, the nullable config, host
config and state, and the network endpoint map (payload strings carried
verbatim, never inspected). -/
structure InspectResponse where
  id : String
  name : String
  image : String
  config : Option ContainerConfig
  hostConfig : Option HostConfig
  state : Option ContainerState
  networks : Option (List (String × String))
deriving DecidableEq

/-- container.Summary fields read by the engine. -/
structure ContainerSummary where
  id : String
  names : List String
  imageID : String
deriving DecidableEq

/- ------------------------------------------------------------------ -/
/- Rolling eligibility (part_003 lines 84 to 119).                     -/
/- ------------------------------------------------------------------ -/

/-- supportsRollingUpdate (part_003 lines 84 to 98). -/
def supportsRollingUpdate (cur : InspectResponse) : Bool :=
  match cur.hostConfig with
  | none => true
  | some hc =>
    if hc.networkMode == "host" then false
    else if hc.publishAllPorts then false
    else if hc.portBindings.length > 0 then false
    else true

/-- hasRollingLabel (part_003 lines 100 to 119). -/
def hasRollingLabel (cur : InspectResponse) (label : String) : Bool :=
  match cur.config with
  | none => false
  | some c =>
    match c.labels with
    | none => false
    | some labels =>
      if label == "" then false
      else
        match stringsCut1 label '=' with
        | (key, value, hasValue) =>
          if key == "" then false
          else
            match assocLookup labels key with
            | none => false
            | some got =>
              if !hasValue || value == "" then true
              else got == value

/-- Strategy selection condition of part_003 line 58. -/
def rollingSelected (cur : InspectResponse) (label : String) : Bool :=
  supportsRollingUpdate cur && hasRollingLabel cur label

/-- Host-config side of the C2 claim: network mode not host, ports not
all published, no port bindings; a missing HostConfig counts as all three
conditions satisfied. -/
def claimHostOk (cur : InspectResponse) : Bool :=
  match cur.hostConfig with
  | none => true
  | some hc =>
    !(hc.networkMode == "host") && !hc.publishAllPorts && hc.portBindings.isEmpty

/-- Label side of the C2 claim, read literally: a key-only selector
matches any value of a present key; a key=value selector requires exact
value equality. -/
def claimLabelMatch (cur : InspectResponse) (label : String) : Bool :=
  match stringsCut1 label '=' with
  | (key, value, hasValue) =>
    let labels :=
      match cur.config with
      | none => []
      | some c => c.labels.getD []
    match assocLookup labels key with
    | none => false
    | some got => if hasValue then got == value else true

/-- Label side of the amended C2 claim: the selector must be non-empty
with a non-empty key and the key must be present among the container
labels; a key-only selector, or a key= selector whose value part is
empty, matches any value; a key=value selector with a non-empty value
requires exact value equality. -/
def amendedLabelMatch (cur : InspectResponse) (label : String) : Bool :=
  match stringsCut1 label '=' with
  | (key, value, hasValue) =>
    if label == "" || key == "" then false
    else
      let labels :=
        match cur.config with
        | none => []
        | some c => c.labels.getD []
      match assocLookup labels key with
      | none => false
      | some got => if hasValue && !(value == "") then got == value else true

/-- Concrete container used to refute the literal reading of C2: no host
config, one label app=x. -/
def c2Container : InspectResponse :=
  { id := "abc", name := "/web", image := "sha256:one",
    config := some { image := "img:1", labels := some [("app", "x")], healthcheck := none },
    hostConfig := none, state := none, networks := none }

/-- C2 counterexample: for the selector app= (key=value form with empty
value) and a container labelled app=x, the code selects the rolling
strategy although exact value equality, as the claim states it, fails. -/
theorem claim_c2_counterexample :
    rollingSelected c2Container "app=" = true ∧
    (claimHostOk c2Container && claimLabelMatch c2Container "app=") = false := by
  constructor
  · decide
  · decide

theorem supportsRollingUpdate_eq_claimHostOk (cur : InspectResponse) :
    supportsRollingUpdate cur = claimHostOk cur := by
  unfold supportsRollingUpdate claimHostOk
  cases cur.hostConfig with
  | none => rfl
  | some hc =>
    by_cases h1 : hc.networkMode == "host"
    · simp [h1]
    · by_cases h2 : hc.publishAllPorts
      · simp [h1, h2]
      · cases hb : hc.portBindings with
        | nil => simp [h1, h2, hb]
        | cons p rest => simp [h1, h2, hb]

theorem hasRollingLabel_eq_amended (cur : InspectResponse) (label : String) :
    hasRollingLabel cur label = amendedLabelMatch cur label := by
  unfold hasRollingLabel amendedLabelMatch
  rcases hsc : stringsCut1 label '=' with ⟨key, value, hasValue⟩
  cases hcfg : cur.config with
  | none => simp [assocLookup]
  | some c =>
    cases hl : c.labels with
    | none => simp [hl, assocLookup]
    | some labels =>
      simp only [hl, Option.getD_some]
      by_cases hlab : label == ""
      · simp [hlab]
      · by_cases hkey : key == ""
        · simp [hlab, hkey]
        · simp only [hlab, hkey, Bool.or_self, if_false, Bool.false_eq_true,
            Bool.or_false, Bool.false_or]
          cases hlook : assocLookup labels key with
          | none => simp
          | some got =>
            simp only []
            by_cases hv : hasValue
            · by_cases hev : value == "" <;> simp [hv, hev]
            · simp [hv]

/-- C2 (amended): the rolling strategy is selected iff the host-config
conditions hold (missing HostConfig counting as satisfied) and the labels
match the selector, where a key-only selector or a key= selector with an
empty value part matches any value of a present key, a key=value selector
with a non-empty value requires exact value equality, and an empty
selector or a selector with an empty key never matches. -/
theorem claim_c2_amended (cur : InspectResponse) (label : String) :
    rollingSelected cur label = (claimHostOk cur && amendedLabelMatch cur label) := by
  unfold rollingSelected
  rw [supportsRollingUpdate_eq_claimHostOk, hasRollingLabel_eq_amended]

/- ------------------------------------------------------------------ -/
/- Errors and the container-engine oracle.                             -/
/- ------------------------------------------------------------------ -/

/-- Go error values as the engine observes them: the rendered message plus
the structured facts errors.Is / errors.As can recover from the chain
(context cancellation, context deadline, net.Error timeout or temporary).
fmt.Errorf wrapping keeps the chain, hence keeps the flags. -/
structure GoError where
  msg : String
  isDeadlineExceeded : Bool
  isCanceled : Bool
  net : Option (Bool × Bool)
deriving DecidableEq

/-- errors.New: a plain error with no structured kind. -/
def goErr (m : String) : GoError :=
  { msg := m, isDeadlineExceeded := false, isCanceled := false, net := none }

/-- fmt.Errorf("prefix: %w", e): prepends to the message, keeps the chain. -/
def wrapErr (p : String) (e : GoError) : GoError :=
  { e with msg := p ++ ": " ++ e.msg }

/-- Go %q of an image reference inside an error message. -/
def quoteRef (s : String) : String :=
  "\"" ++ s ++ "\""

/-- isTransientError (src/internal/app/errors.go lines 10 to 47). -/
def isTransientError (err : Option GoError) : Bool :=
  match err with
  | none => false
  | some e =>
    if e.isDeadlineExceeded || e.isCanceled then true
    else if (match e.net with | some (t, tmp) => t || tmp | none => false) then true
    else
      let msg := strToLower e.msg
      if strContains msg "timeout" then true
      else if strContains msg "context deadline exceeded" then true
      else if strContains msg "tls handshake" then true
      else if strContains msg "connection refused" then true
      else if strContains msg "connection reset" then true
      else if strContains msg "connection aborted" then true
      else if strContains msg "no such host" then true
      else if strContains msg "temporary failure in name resolution" then true
      else if strContains msg "i/o timeout" then true
      else if strContains msg "network is unreachable" then true
      else false

/-- ContainerCreateOptions fields the engine passes (part_003). -/
structure CreateOptions where
  config : ContainerConfig
  hostConfig : Option HostConfig
  networkingConfig : Option (List (String × String))
  name : String
deriving DecidableEq

/-- ContainerCreateResponse fields the engine reads. -/
structure CreateResponse where
  id : String
  warnings : List String
deriving DecidableEq

/-- ImageInspect fields the engine reads. -/
structure ImageInspect where
  id : String
deriving DecidableEq

/-- One attempted daemon API call, recorded in execution order. -/
inductive DockerOp where
  | containerInspect (id : String)
  | imageInspect (ref : String)
  | imagePull (ref : String) (auth : String)
  | containerList (all : Bool)
  | containerStop (id : String)
  | containerRemove (id : String) (force : Bool) (removeVolumes : Bool)
  | containerCreate (name : String) (image : String)
  | containerStart (id : String)
  | containerRename (id : String) (newName : String)
  | imageRemove (ref : String) (force : Bool) (pruneChildren : Bool)
deriving DecidableEq

/-- The container daemon as a stateful oracle: each API call maps a daemon
state to a successor state and a result.  Quantifying over this structure
quantifies over every daemon behaviour the engine can observe. -/
structure Engine (σ : Type) where
  containerInspect : σ → String → σ × Except GoError InspectResponse
  imageInspect : σ → String → σ × Except GoError ImageInspect
  imagePull : σ → String → String → σ × Except GoError Unit
  containerList : σ → Bool → σ × Except GoError (List ContainerSummary)
  containerStop : σ → String → σ × Except GoError Unit
  containerRemove : σ → String → Bool → Bool → σ × Except GoError Unit
  containerCreate : σ → CreateOptions → σ × Except GoError CreateResponse
  containerStart : σ → String → σ × Except GoError Unit
  containerRename : σ → String → String → σ × Except GoError Unit
  imageRemove : σ → String → Bool → Bool → σ × Except GoError Unit

variable {σ : Type}

instance {ε α : Type} [DecidableEq ε] [DecidableEq α] : DecidableEq (Except ε α)
  | Except.error e1, Except.error e2 =>
    if h : e1 = e2 then Decidable.isTrue (by rw [h])
    else Decidable.isFalse (fun hh => h (by injection hh))
  | Except.error _, Except.ok _ => Decidable.isFalse (fun hh => Except.noConfusion hh)
  | Except.ok _, Except.error _ => Decidable.isFalse (fun hh => Except.noConfusion hh)
  | Except.ok a1, Except.ok a2 =>
    if h : a1 = a2 then Decidable.isTrue (by rw [h])
    else Decidable.isFalse (fun hh => h (by injection hh))

/-- Result of running an embedded engine fragment: final daemon state, the
trace of attempted API calls, and the Go return value or error. -/
abbrev DRes (σ : Type) (α : Type) := σ × List DockerOp × Except GoError α

def callContainerInspect (eng : Engine σ) (s : σ) (id : String) : DRes σ InspectResponse :=
  let r := eng.containerInspect s id
  (r.1, [DockerOp.containerInspect id], r.2)

def callImageInspect (eng : Engine σ) (s : σ) (ref : String) : DRes σ ImageInspect :=
  let r := eng.imageInspect s ref
  (r.1, [DockerOp.imageInspect ref], r.2)

def callImagePull (eng : Engine σ) (s : σ) (ref auth : String) : DRes σ Unit :=
  let r := eng.imagePull s ref auth
  (r.1, [DockerOp.imagePull ref auth], r.2)

def callContainerList (eng : Engine σ) (s : σ) (all : Bool) : DRes σ (List ContainerSummary) :=
  let r := eng.containerList s all
  (r.1, [DockerOp.containerList all], r.2)

def callContainerStop (eng : Engine σ) (s : σ) (id : String) : DRes σ Unit :=
  let r := eng.containerStop s id
  (r.1, [DockerOp.containerStop id], r.2)

def callContainerRemove (eng : Engine σ) (s : σ) (id : String) (force removeVolumes : Bool) : DRes σ Unit :=
  let r := eng.containerRemove s id force removeVolumes
  (r.1, [DockerOp.containerRemove id force removeVolumes], r.2)

def callContainerCreate (eng : Engine σ) (s : σ) (opts : CreateOptions) : DRes σ CreateResponse :=
  let r := eng.containerCreate s opts
  (r.1, [DockerOp.containerCreate opts.name opts.config.image], r.2)

def callContainerStart (eng : Engine σ) (s : σ) (id : String) : DRes σ Unit :=
  let r := eng.containerStart s id
  (r.1, [DockerOp.containerStart id], r.2)

def callContainerRename (eng : Engine σ) (s : σ) (id newName : String) : DRes σ Unit :=
  let r := eng.containerRename s id newName
  (r.1, [DockerOp.containerRename id newName], r.2)

def callImageRemove (eng : Engine σ) (s : σ) (ref : String) (force pruneChildren : Bool) : DRes σ Unit :=
  let r := eng.imageRemove s ref force pruneChildren
  (r.1, [DockerOp.imageRemove ref force pruneChildren], r.2)

/-- buildNetworkingConfig (docker.go lines 29 to 42): copy the endpoint
map when present; a nil NetworkSettings or Networks yields nil. -/
def buildNetworkingConfig (cur : InspectResponse) : Option (List (String × String)) :=
  cur.networks

/-- pullImage (docker.go lines 44 to 54): one pull call; waiting on the
response stream is folded into the call result. -/
def pullImage (eng : Engine σ) (s : σ) (ref auth : String) : DRes σ Unit :=
  callImagePull eng s ref auth

/- ------------------------------------------------------------------ -/
/- Cleanup advisor (docker.go lines 56 to 82).                         -/
/- ------------------------------------------------------------------ -/

/-- cleanupOldImageIfUnused: trim the identity, refuse on empty, list all
containers, report still-in-use when any container carries the identity,
otherwise attempt the non-forced pruning removal. -/
def cleanupOldImageIfUnused (eng : Engine σ) (s : σ) (oldImageID0 : String) : DRes σ (Bool × String) :=
  let oldImageID := strTrim oldImageID0
  if oldImageID == "" then (s, [], Except.ok (false, "empty image id"))
  else
    match callContainerList eng s true with
    | (s1, tr1, Except.error e) =>
      (s1, tr1, Except.error (wrapErr "list containers for cleanup" e))
    | (s1, tr1, Except.ok items) =>
      if items.any (fun c => c.imageID == oldImageID) then
        (s1, tr1, Except.ok (false, "old image still in use"))
      else
        match callImageRemove eng s1 oldImageID false true with
        | (s2, tr2, Except.error e) => (s2, tr1 ++ tr2, Except.error e)
        | (s2, tr2, Except.ok _) => (s2, tr1 ++ tr2, Except.ok (true, "old image unused"))

/-- C4: for every old image identity (a digest-like string: non-empty and
free of surrounding whitespace) and every host listing, when any listed
container carries the identity the advisor answers removed=false with the
still-in-use reason and the trace holds no image removal; and any image
removal in the trace implies no listed container carried the identity. -/
theorem claim_c4_cleanup_safety (eng : Engine σ) (s : σ) (old : String)
    (items : List ContainerSummary) (s1 : σ)
    (hid : ¬(old = "")) (htrim : strTrim old = old)
    (hlist : eng.containerList s true = (s1, Except.ok items)) :
    ((∃ c ∈ items, c.imageID = old) →
      cleanupOldImageIfUnused eng s old =
        (s1, [DockerOp.containerList true], Except.ok (false, "old image still in use"))) ∧
    (∀ i f p, DockerOp.imageRemove i f p ∈ (cleanupOldImageIfUnused eng s old).2.1 →
      ∀ c ∈ items, ¬(c.imageID = old)) := by
  have hne : (old == "") = false := by
    simpa [beq_iff_eq] using hid
  constructor
  · rintro ⟨c, hc, hcid⟩
    have hany : items.any (fun c => c.imageID == old) = true := by
      refine List.any_eq_true.mpr ⟨c, hc, ?_⟩
      simpa [beq_iff_eq] using hcid
    simp [cleanupOldImageIfUnused, htrim, hne, callContainerList, hlist, hany]
  · intro i f p hmem c hc
    by_cases hany : items.any (fun c => c.imageID == old) = true
    · simp [cleanupOldImageIfUnused, htrim, hne, callContainerList, hlist, hany] at hmem
    · intro hcid
      apply hany
      refine List.any_eq_true.mpr ⟨c, hc, ?_⟩
      simpa [beq_iff_eq] using hcid

/-- Daemon oracle used to witness C4: a single stopped container still
pinned to the old image identity. -/
def c4Engine : Engine Unit :=
  { containerInspect := fun s _ => (s, Except.error (goErr "not modelled")),
    imageInspect := fun s _ => (s, Except.error (goErr "not modelled")),
    imagePull := fun s _ _ => (s, Except.error (goErr "not modelled")),
    containerList := fun s _ =>
      (s, Except.ok [{ id := "c1", names := ["/old"], imageID := "sha256:abc" }]),
    containerStop := fun s _ => (s, Except.ok ()),
    containerRemove := fun s _ _ _ => (s, Except.ok ()),
    containerCreate := fun s _ => (s, Except.ok { id := "n1", warnings := [] }),
    containerStart := fun s _ => (s, Except.ok ()),
    containerRename := fun s _ _ => (s, Except.ok ()),
    imageRemove := fun s _ _ _ => (s, Except.ok ()) }

theorem claim_c4_witness :
    cleanupOldImageIfUnused c4Engine () "sha256:abc" =
      ((), [DockerOp.containerList true], Except.ok (false, "old image still in use")) := by
  exact (claim_c4_cleanup_safety c4Engine () "sha256:abc"
      [{ id := "c1", names := ["/old"], imageID := "sha256:abc" }] ()
      (by decide) (by decide) rfl).1
    ⟨{ id := "c1", names := ["/old"], imageID := "sha256:abc" }, by decide, rfl⟩

/- ------------------------------------------------------------------ -/
/- Health wait (part_003 lines 226 to 264).                            -/
/- ------------------------------------------------------------------ -/

/-- Poll interval of the health wait ticker: 500 milliseconds. -/
def healthPollIntervalMs : Nat := 500

/-- Health timeout the rolling strategy passes at part_003 line 198:
30 seconds. -/
def rollingHealthTimeoutMs : Nat := 30000

/-- Polling loop of waitForHealthyIfConfigured (part_003 lines 241 to
263): each ticker fire inspects the container; a missing state or health
yields success, healthy yields success, unhealthy yields an error, any
other status continues; the deadline firing after timeout/interval polls
yields the timeout error.  The context given to update operations is the
non-cancellable one built at run.go line 17, so the ctx.Done branch never
fires and is not modelled. -/
def waitPollLoop (eng : Engine σ) (containerID : String) : Nat → σ → DRes σ Unit
  | 0, s => (s, [], Except.error (goErr "timeout waiting for healthy"))
  | Nat.succ n, s =>
    match callContainerInspect eng s containerID with
    | (s1, tr, Except.error e) => (s1, tr, Except.error e)
    | (s1, tr, Except.ok cur) =>
      match cur.state with
      | none => (s1, tr, Except.ok ())
      | some st =>
        match st.health with
        | none => (s1, tr, Except.ok ())
        | some h =>
          if h.status == "healthy" then (s1, tr, Except.ok ())
          else if h.status == "unhealthy" then
            (s1, tr, Except.error (goErr "container reported unhealthy"))
          else
            match waitPollLoop eng containerID n s1 with
            | (s2, tr2, res) => (s2, tr ++ tr2, res)

/-- waitForHealthyIfConfigured (part_003 lines 226 to 264): inspect once;
succeed immediately when no healthcheck is configured, otherwise poll. -/
def waitForHealthyIfConfigured (eng : Engine σ) (s : σ) (containerID : String)
    (timeoutMs : Nat) : DRes σ Unit :=
  match callContainerInspect eng s containerID with
  | (s1, tr, Except.error e) => (s1, tr, Except.error e)
  | (s1, tr, Except.ok cur) =>
    match cur.config with
    | none => (s1, tr, Except.ok ())
    | some c =>
      match c.healthcheck with
      | none => (s1, tr, Except.ok ())
      | some _ =>
        match waitPollLoop eng containerID (timeoutMs / healthPollIntervalMs) s1 with
        | (s2, tr2, res) => (s2, tr ++ tr2, res)

/- ------------------------------------------------------------------ -/
/- Update executor, rolling replace strategy (part_003 lines 167-224). -/
/- ------------------------------------------------------------------ -/

/-- Creation options the rolling strategy passes (part_003 lines 178 to
183): same config with the image reference swapped, same host config,
re-applied network endpoints, temporary name original.next. -/
def rollingCreateOpts (cur : InspectResponse) (c0 : ContainerConfig)
    (imageRef : String) : CreateOptions :=
  { config := { c0 with image := imageRef }, hostConfig := cur.hostConfig,
    networkingConfig := buildNetworkingConfig cur,
    name := trimSlash cur.name ++ ".next" }

/-- Acquisition phase of rollingUpdateContainer (part_003 lines 167 to
201): create the replacement under the temporary name, start it, run the
health wait; on a start or health failure the half-created replacement is
force-removed (result ignored) and the wrapped error is returned.  The Go
code dereferences cur.Config when swapping the image, which on a nil
config would crash; that branch is modelled as an error result. -/
def rollingAcquire (eng : Engine σ) (s : σ) (cur : InspectResponse)
    (imageRef : String) : DRes σ String :=
  match cur.config with
  | none => (s, [], Except.error (goErr "nil Config"))
  | some c0 =>
    match callContainerCreate eng s (rollingCreateOpts cur c0 imageRef) with
    | (s1, tr1, Except.error e) => (s1, tr1, Except.error (wrapErr "create" e))
    | (s1, tr1, Except.ok created) =>
      match callContainerStart eng s1 created.id with
      | (s2, tr2, Except.error e) =>
        match callContainerRemove eng s2 created.id true false with
        | (s3, tr3, _) => (s3, tr1 ++ tr2 ++ tr3, Except.error (wrapErr "start" e))
      | (s2, tr2, Except.ok _) =>
        match waitForHealthyIfConfigured eng s2 created.id rollingHealthTimeoutMs with
        | (s3, tr3, Except.error e) =>
          match callContainerRemove eng s3 created.id true false with
          | (s4, tr4, _) =>
            (s4, tr1 ++ tr2 ++ tr3 ++ tr4, Except.error (wrapErr "health check" e))
        | (s3, tr3, Except.ok _) => (s3, tr1 ++ tr2 ++ tr3, Except.ok created.id)

/-- rollingUpdateContainer (part_003 lines 167 to 224): after the
acquisition phase succeeds, stop the old container, remove it non-forced,
and rename the replacement to the original name. -/
def rollingUpdateContainer (eng : Engine σ) (s : σ) (cur : InspectResponse)
    (imageRef : String) : DRes σ Unit :=
  match rollingAcquire eng s cur imageRef with
  | (s1, tr1, Except.error e) => (s1, tr1, Except.error e)
  | (s1, tr1, Except.ok createdID) =>
    match callContainerStop eng s1 cur.id with
    | (s2, tr2, Except.error e) => (s2, tr1 ++ tr2, Except.error (wrapErr "stop old" e))
    | (s2, tr2, Except.ok _) =>
      match callContainerRemove eng s2 cur.id false false with
      | (s3, tr3, Except.error e) =>
        (s3, tr1 ++ tr2 ++ tr3, Except.error (wrapErr "remove old" e))
      | (s3, tr3, Except.ok _) =>
        match callContainerRename eng s3 createdID (trimSlash cur.name) with
        | (s4, tr4, Except.error e) =>
          (s4, tr1 ++ tr2 ++ tr3 ++ tr4, Except.error (wrapErr "rename" e))
        | (s4, tr4, Except.ok _) => (s4, tr1 ++ tr2 ++ tr3 ++ tr4, Except.ok ())

/- ------------------------------------------------------------------ -/
/- Update executor, recreate strategy (part_003 lines 121 to 165).     -/
/- ------------------------------------------------------------------ -/

/-- Creation options the recreate strategy passes (part_003 lines 144 to
149): same config with the image reference swapped, same host config,
re-applied network endpoints, the original name. -/
def recreateCreateOpts (cur : InspectResponse) (c0 : ContainerConfig)
    (imageRef : String) : CreateOptions :=
  { config := { c0 with image := imageRef }, hostConfig := cur.hostConfig,
    networkingConfig := buildNetworkingConfig cur, name := trimSlash cur.name }

/-- recreateContainer (part_003 lines 121 to 165): stop the old container,
remove it non-forced, create the replacement under the original name with
the image reference swapped, and start it.  The Go code dereferences
cur.Config when swapping the image; a nil config is modelled as an error
result. -/
def recreateContainer (eng : Engine σ) (s : σ) (cur : InspectResponse)
    (imageRef : String) : DRes σ Unit :=
  match cur.config with
  | none => (s, [], Except.error (goErr "nil Config"))
  | some c0 =>
    match callContainerStop eng s cur.id with
    | (s1, tr1, Except.error e) => (s1, tr1, Except.error (wrapErr "stop" e))
    | (s1, tr1, Except.ok _) =>
      match callContainerRemove eng s1 cur.id false false with
      | (s2, tr2, Except.error e) => (s2, tr1 ++ tr2, Except.error (wrapErr "remove" e))
      | (s2, tr2, Except.ok _) =>
        match callContainerCreate eng s2 (recreateCreateOpts cur c0 imageRef) with
        | (s3, tr3, Except.error e) =>
          (s3, tr1 ++ tr2 ++ tr3, Except.error (wrapErr "create" e))
        | (s3, tr3, Except.ok created) =>
          match callContainerStart eng s3 created.id with
          | (s4, tr4, Except.error e) =>
            (s4, tr1 ++ tr2 ++ tr3 ++ tr4, Except.error (wrapErr "start" e))
          | (s4, tr4, Except.ok _) => (s4, tr1 ++ tr2 ++ tr3 ++ tr4, Except.ok ())

/- ------------------------------------------------------------------ -/
/- Health wait reasoning.                                              -/
/- ------------------------------------------------------------------ -/

/-- Daemon state reached after a number of successive inspect calls of
one container. -/
def iterInsp (eng : Engine σ) (id : String) : Nat → σ → σ
  | 0, s => s
  | Nat.succ n, s => iterInsp eng id n (eng.containerInspect s id).1

/-- Result the daemon returns to the j-th poll of the health wait. -/
def pollOutcome (eng : Engine σ) (id : String) (s : σ) (j : Nat) :
    Except GoError InspectResponse :=
  (eng.containerInspect (iterInsp eng id j s) id).2

/-- A poll outcome on which the health wait keeps polling: an inspection
that succeeded, carries a health state, and reports a status that is
neither healthy nor unhealthy. -/
def pollNonTerminal (r : Except GoError InspectResponse) : Bool :=
  match r with
  | Except.ok cur =>
    match cur.state with
    | some st =>
      match st.health with
      | some h => !(h.status == "healthy") && !(h.status == "unhealthy")
      | none => false
    | none => false
  | Except.error _ => false

/-- The result the poll loop returns upon seeing the given inspection,
when that inspection terminates the loop. -/
def terminalResult (cur : InspectResponse) : Option (Except GoError Unit) :=
  match cur.state with
  | none => some (Except.ok ())
  | some st =>
    match st.health with
    | none => some (Except.ok ())
    | some h =>
      if h.status == "healthy" then some (Except.ok ())
      else if h.status == "unhealthy" then
        some (Except.error (goErr "container reported unhealthy"))
      else none

theorem iterInsp_succ_right (eng : Engine σ) (id : String) (k : Nat) (s : σ) :
    iterInsp eng id (k + 1) s = (eng.containerInspect (iterInsp eng id k s) id).1 := by
  induction k generalizing s with
  | zero => rfl
  | succ k ih =>
    show iterInsp eng id (k + 1) (eng.containerInspect s id).1 = _
    rw [ih]
    rfl

theorem waitPollLoop_step (eng : Engine σ) (id : String) (n : Nat) (s : σ)
    (h : pollNonTerminal (eng.containerInspect s id).2 = true) :
    waitPollLoop eng id (n + 1) s =
      match waitPollLoop eng id n (eng.containerInspect s id).1 with
      | (s2, tr2, res) => (s2, DockerOp.containerInspect id :: tr2, res) := by
  rcases hr : eng.containerInspect s id with ⟨s1, r⟩
  rw [hr] at h
  cases r with
  | error e => simp [pollNonTerminal] at h
  | ok cur =>
    cases hst : cur.state with
    | none => simp [pollNonTerminal, hst] at h
    | some st =>
      cases hh : st.health with
      | none => simp [pollNonTerminal, hst, hh] at h
      | some hl =>
        simp only [pollNonTerminal, hst, hh, Bool.and_eq_true, Bool.not_eq_true'] at h
        rcases w : waitPollLoop eng id n s1 with ⟨s2, tr2, res⟩
        simp [waitPollLoop, callContainerInspect, hr, hst, hh, h.1, h.2, w]

theorem waitPollLoop_skip (eng : Engine σ) (id : String) (k : Nat) :
    ∀ (n : Nat) (s : σ), k ≤ n →
      (∀ j, j < k → pollNonTerminal (pollOutcome eng id s j) = true) →
      waitPollLoop eng id n s =
        match waitPollLoop eng id (n - k) (iterInsp eng id k s) with
        | (s2, tr2, res) =>
          (s2, List.replicate k (DockerOp.containerInspect id) ++ tr2, res) := by
  induction k with
  | zero =>
    intro n s _ _
    rcases w : waitPollLoop eng id n s with ⟨s2, tr2, res⟩
    simp [iterInsp, w]
  | succ k ih =>
    intro n s hkn hskip
    cases n with
    | zero => omega
    | succ m =>
      have hstep : pollNonTerminal (eng.containerInspect s id).2 = true := by
        have := hskip 0 (by omega)
        simpa [pollOutcome, iterInsp] using this
      rw [waitPollLoop_step eng id m s hstep]
      have hskip1 : ∀ j, j < k →
          pollNonTerminal (pollOutcome eng id (eng.containerInspect s id).1 j) = true := by
        intro j hj
        have := hskip (j + 1) (by omega)
        simpa [pollOutcome, iterInsp] using this
      rw [ih m (eng.containerInspect s id).1 (by omega) hskip1]
      have hsub : m + 1 - (k + 1) = m - k := by omega
      have hiter : iterInsp eng id (k + 1) s =
          iterInsp eng id k (eng.containerInspect s id).1 := rfl
      rw [hsub, hiter]
      rcases waitPollLoop eng id (m - k) (iterInsp eng id k (eng.containerInspect s id).1)
        with ⟨s2, tr2, res⟩
      simp [List.replicate_succ]

theorem waitPollLoop_terminal (eng : Engine σ) (id : String) (n : Nat) (s : σ)
    (cur : InspectResponse) (r : Except GoError Unit) (hn : 0 < n)
    (hok : (eng.containerInspect s id).2 = Except.ok cur)
    (hres : terminalResult cur = some r) :
    waitPollLoop eng id n s =
      ((eng.containerInspect s id).1, [DockerOp.containerInspect id], r) := by
  cases n with
  | zero => omega
  | succ m =>
    rcases hr : eng.containerInspect s id with ⟨s1, r0⟩
    rw [hr] at hok
    simp only at hok
    subst hok
    cases hst : cur.state with
    | none =>
      simp only [terminalResult, hst, Option.some.injEq] at hres
      subst hres
      simp [waitPollLoop, callContainerInspect, hr, hst]
    | some st =>
      cases hh : st.health with
      | none =>
        simp only [terminalResult, hst, hh, Option.some.injEq] at hres
        subst hres
        simp [waitPollLoop, callContainerInspect, hr, hst, hh]
      | some hl =>
        by_cases hhe : hl.status == "healthy"
        · simp only [terminalResult, hst, hh, hhe, if_true, Option.some.injEq] at hres
          subst hres
          simp [waitPollLoop, callContainerInspect, hr, hst, hh, hhe]
        · by_cases hun : hl.status == "unhealthy"
          · simp only [terminalResult, hst, hh, hhe, hun, if_false, if_true,
              Bool.false_eq_true, Option.some.injEq] at hres
            subst hres
            simp [waitPollLoop, callContainerInspect, hr, hst, hh, hhe, hun]
          · simp [terminalResult, hst, hh, hhe, hun] at hres

theorem waitForHealthy_noHealthcheck (eng : Engine σ) (s s1 : σ) (id : String)
    (tmo : Nat) (cur0 : InspectResponse)
    (hinit : eng.containerInspect s id = (s1, Except.ok cur0))
    (hnc : cur0.config = none ∨ ∃ c, cur0.config = some c ∧ c.healthcheck = none) :
    waitForHealthyIfConfigured eng s id tmo =
      (s1, [DockerOp.containerInspect id], Except.ok ()) := by
  rcases hnc with hnc | ⟨c, hc, hhc⟩
  · simp [waitForHealthyIfConfigured, callContainerInspect, hinit, hnc]
  · simp [waitForHealthyIfConfigured, callContainerInspect, hinit, hc, hhc]

theorem waitForHealthy_configured (eng : Engine σ) (s s1 : σ) (id : String)
    (tmo : Nat) (cur0 : InspectResponse) (c : ContainerConfig)
    (hcfg : HealthcheckConfig)
    (hinit : eng.containerInspect s id = (s1, Except.ok cur0))
    (hc : cur0.config = some c) (hhc : c.healthcheck = some hcfg) :
    waitForHealthyIfConfigured eng s id tmo =
      match waitPollLoop eng id (tmo / healthPollIntervalMs) s1 with
      | (s2, tr2, res) => (s2, DockerOp.containerInspect id :: tr2, res) := by
  rcases w : waitPollLoop eng id (tmo / healthPollIntervalMs) s1 with ⟨s2, tr2, res⟩
  simp [waitForHealthyIfConfigured, callContainerInspect, hinit, hc, hhc, w]

/-- C7: the health wait succeeds immediately, with a single inspection and
no polling, when the replacement declares no healthcheck; with a
healthcheck it polls (each poll one inspection), returning success when a
poll reports healthy, the unhealthy error when a poll reports unhealthy,
and the timeout error when timeout/interval polls all pass without a
terminal status; the poll interval is 500 ms and the rolling caller passes
a 30 second timeout, bounding the wait at 60 polls. -/
theorem claim_c7_health_wait (eng : Engine σ) (s s1 : σ) (id : String) (tmo : Nat)
    (cur0 : InspectResponse)
    (hinit : eng.containerInspect s id = (s1, Except.ok cur0)) :
    ((cur0.config = none ∨ ∃ c, cur0.config = some c ∧ c.healthcheck = none) →
      waitForHealthyIfConfigured eng s id tmo =
        (s1, [DockerOp.containerInspect id], Except.ok ())) ∧
    (∀ c hcfg, cur0.config = some c → c.healthcheck = some hcfg →
      (∀ k, k < tmo / healthPollIntervalMs →
        (∀ j, j < k → pollNonTerminal (pollOutcome eng id s1 j) = true) →
        ∀ cur2 st h, pollOutcome eng id s1 k = Except.ok cur2 → cur2.state = some st →
          st.health = some h →
          ((h.status = "healthy" →
            waitForHealthyIfConfigured eng s id tmo =
              (iterInsp eng id (k + 1) s1,
                List.replicate (k + 2) (DockerOp.containerInspect id), Except.ok ())) ∧
           (h.status = "unhealthy" →
            waitForHealthyIfConfigured eng s id tmo =
              (iterInsp eng id (k + 1) s1,
                List.replicate (k + 2) (DockerOp.containerInspect id),
                Except.error (goErr "container reported unhealthy"))))) ∧
      ((∀ j, j < tmo / healthPollIntervalMs →
          pollNonTerminal (pollOutcome eng id s1 j) = true) →
        waitForHealthyIfConfigured eng s id tmo =
          (iterInsp eng id (tmo / healthPollIntervalMs) s1,
            List.replicate (tmo / healthPollIntervalMs + 1) (DockerOp.containerInspect id),
            Except.error (goErr "timeout waiting for healthy")))) ∧
    (healthPollIntervalMs = 500 ∧ rollingHealthTimeoutMs = 30000 ∧
      rollingHealthTimeoutMs / healthPollIntervalMs = 60) := by
  refine ⟨fun hnc => waitForHealthy_noHealthcheck eng s s1 id tmo cur0 hinit hnc,
    fun c hcfg hc hhc => ⟨?_, ?_⟩, rfl, rfl, rfl⟩
  · intro k hk hskip cur2 st h hpoll hst hh
    have hterm : ∀ r, terminalResult cur2 = some r →
        waitForHealthyIfConfigured eng s id tmo =
          (iterInsp eng id (k + 1) s1,
            List.replicate (k + 2) (DockerOp.containerInspect id), r) := by
      intro r hres
      rw [waitForHealthy_configured eng s s1 id tmo cur0 c hcfg hinit hc hhc]
      rw [waitPollLoop_skip eng id k (tmo / healthPollIntervalMs) s1 (by omega) hskip]
      have hterm2 := waitPollLoop_terminal eng id (tmo / healthPollIntervalMs - k)
        (iterInsp eng id k s1) cur2 r (by omega) hpoll hres
      rw [hterm2]
      rw [← iterInsp_succ_right eng id k s1]
      have hrep : DockerOp.containerInspect id ::
          (List.replicate k (DockerOp.containerInspect id) ++ [DockerOp.containerInspect id]) =
          List.replicate (k + 2) (DockerOp.containerInspect id) := by
        rw [← List.replicate_succ']
        rw [← List.replicate_succ]
      rw [← hrep]
    constructor
    · intro hhe
      exact hterm (Except.ok ()) (by simp [terminalResult, hst, hh, hhe])
    · intro hun
      refine hterm (Except.error (goErr "container reported unhealthy")) ?_
      simp [terminalResult, hst, hh, hun]
  · intro hall
    rw [waitForHealthy_configured eng s s1 id tmo cur0 c hcfg hinit hc hhc]
    rw [waitPollLoop_skip eng id (tmo / healthPollIntervalMs) (tmo / healthPollIntervalMs)
      s1 (by omega) hall]
    simp [Nat.sub_self, waitPollLoop, List.replicate_succ]

/- ------------------------------------------------------------------ -/
/- Script daemons used by witnesses.                                   -/
/- ------------------------------------------------------------------ -/

/-- Daemon oracle whose state is a call counter and whose inspections
answer from a script; every other call fails. -/
def inspectOnlyEngine (f : Nat → Except GoError InspectResponse) : Engine Nat :=
  { containerInspect := fun n _ => (n + 1, f n),
    imageInspect := fun n _ => (n, Except.error (goErr "not modelled")),
    imagePull := fun n _ _ => (n, Except.error (goErr "not modelled")),
    containerList := fun n _ => (n, Except.error (goErr "not modelled")),
    containerStop := fun n _ => (n, Except.error (goErr "not modelled")),
    containerRemove := fun n _ _ _ => (n, Except.error (goErr "not modelled")),
    containerCreate := fun n _ => (n, Except.error (goErr "not modelled")),
    containerStart := fun n _ => (n, Except.error (goErr "not modelled")),
    containerRename := fun n _ _ => (n, Except.error (goErr "not modelled")),
    imageRemove := fun n _ _ _ => (n, Except.error (goErr "not modelled")) }

theorem inspectOnlyEngine_iter (f : Nat → Except GoError InspectResponse)
    (id : String) : ∀ (j s : Nat), iterInsp (inspectOnlyEngine f) id j s = s + j := by
  intro j
  induction j with
  | zero => intro s; rfl
  | succ j ih =>
    intro s
    show iterInsp (inspectOnlyEngine f) id j (s + 1) = s + (j + 1)
    rw [ih]
    omega

/-- Container config declaring a healthcheck. -/
def hcConfig : ContainerConfig :=
  { image := "img:1", labels := none, healthcheck := some { test := ["CMD"] } }

/-- Container config declaring no healthcheck. -/
def noHcConfig : ContainerConfig :=
  { image := "img:1", labels := none, healthcheck := none }

/-- Inspection response with the given config and state. -/
def respWith (cfg : Option ContainerConfig) (st : Option ContainerState) : InspectResponse :=
  { id := "cid", name := "/web.next", image := "sha256:new",
    config := cfg, hostConfig := none, state := st, networks := none }

def respStarting : InspectResponse :=
  respWith (some hcConfig) (some { health := some { status := "starting" } })

def respHealthy : InspectResponse :=
  respWith (some hcConfig) (some { health := some { status := "healthy" } })

def respUnhealthy : InspectResponse :=
  respWith (some hcConfig) (some { health := some { status := "unhealthy" } })

def c7fNoHC : Nat → Except GoError InspectResponse :=
  fun _ => Except.ok (respWith (some noHcConfig) none)

def c7fHealthy : Nat → Except GoError InspectResponse :=
  fun n => if n == 0 then Except.ok (respWith (some hcConfig) none)
    else if n == 1 then Except.ok respStarting
    else Except.ok respHealthy

def c7fUnhealthy : Nat → Except GoError InspectResponse :=
  fun n => if n == 0 then Except.ok (respWith (some hcConfig) none)
    else Except.ok respUnhealthy

def c7fNever : Nat → Except GoError InspectResponse :=
  fun n => if n == 0 then Except.ok (respWith (some hcConfig) none)
    else Except.ok respStarting

theorem claim_c7_witness :
    waitForHealthyIfConfigured (inspectOnlyEngine c7fNoHC) 0 "cid" 30000 =
      (1, [DockerOp.containerInspect "cid"], Except.ok ()) ∧
    waitForHealthyIfConfigured (inspectOnlyEngine c7fHealthy) 0 "cid" 30000 =
      (3, List.replicate 3 (DockerOp.containerInspect "cid"), Except.ok ()) ∧
    waitForHealthyIfConfigured (inspectOnlyEngine c7fUnhealthy) 0 "cid" 30000 =
      (2, List.replicate 2 (DockerOp.containerInspect "cid"),
        Except.error (goErr "container reported unhealthy")) ∧
    waitForHealthyIfConfigured (inspectOnlyEngine c7fNever) 0 "cid" 30000 =
      (61, List.replicate 61 (DockerOp.containerInspect "cid"),
        Except.error (goErr "timeout waiting for healthy")) := by
  refine ⟨?_, ?_, ?_, ?_⟩
  · exact (claim_c7_health_wait (inspectOnlyEngine c7fNoHC) 0 1 "cid" 30000
      (respWith (some noHcConfig) none) rfl).1 (Or.inr ⟨noHcConfig, rfl, rfl⟩)
  · exact (((claim_c7_health_wait (inspectOnlyEngine c7fHealthy) 0 1 "cid" 30000
      (respWith (some hcConfig) none) rfl).2.1 hcConfig { test := ["CMD"] } rfl rfl).1
      1 (by decide)
      (by
        intro j hj
        have hj0 : j = 0 := by omega
        subst hj0
        decide)
      respHealthy { health := some { status := "healthy" } } { status := "healthy" }
      (by decide) rfl rfl).1 rfl
  · exact (((claim_c7_health_wait (inspectOnlyEngine c7fUnhealthy) 0 1 "cid" 30000
      (respWith (some hcConfig) none) rfl).2.1 hcConfig { test := ["CMD"] } rfl rfl).1
      0 (by decide)
      (by
        intro j hj
        exact absurd hj (Nat.not_lt_zero j))
      respUnhealthy { health := some { status := "unhealthy" } } { status := "unhealthy" }
      (by decide) rfl rfl).2 rfl
  · refine (((claim_c7_health_wait (inspectOnlyEngine c7fNever) 0 1 "cid" 30000
      (respWith (some hcConfig) none) rfl).2.1 hcConfig { test := ["CMD"] } rfl rfl).2 ?_)
    intro j hj
    rw [pollOutcome, inspectOnlyEngine_iter]
    have h0 : ((1 + j : Nat) == 0) = false := by
      simp [Nat.add_comm]
    show pollNonTerminal (c7fNever (1 + j)) = true
    rw [c7fNever]
    rw [h0]
    decide

/- ------------------------------------------------------------------ -/
/- C10: a poll that reports no health state ends the wait successfully. -/
/- ------------------------------------------------------------------ -/

theorem waitConfigured_terminal (eng : Engine σ) (s s1 : σ) (id : String) (tmo : Nat)
    (cur0 : InspectResponse) (c : ContainerConfig) (hcfg : HealthcheckConfig)
    (k : Nat) (cur2 : InspectResponse) (r : Except GoError Unit)
    (hinit : eng.containerInspect s id = (s1, Except.ok cur0))
    (hc : cur0.config = some c) (hhc : c.healthcheck = some hcfg)
    (hk : k < tmo / healthPollIntervalMs)
    (hskip : ∀ j, j < k → pollNonTerminal (pollOutcome eng id s1 j) = true)
    (hpoll : pollOutcome eng id s1 k = Except.ok cur2)
    (hres : terminalResult cur2 = some r) :
    waitForHealthyIfConfigured eng s id tmo =
      (iterInsp eng id (k + 1) s1,
        List.replicate (k + 2) (DockerOp.containerInspect id), r) := by
  rw [waitForHealthy_configured eng s s1 id tmo cur0 c hcfg hinit hc hhc]
  rw [waitPollLoop_skip eng id k (tmo / healthPollIntervalMs) s1 (by omega) hskip]
  have hterm2 := waitPollLoop_terminal eng id (tmo / healthPollIntervalMs - k)
    (iterInsp eng id k s1) cur2 r (by omega) hpoll hres
  rw [hterm2]
  rw [← iterInsp_succ_right eng id k s1]
  have hrep : DockerOp.containerInspect id ::
      (List.replicate k (DockerOp.containerInspect id) ++ [DockerOp.containerInspect id]) =
      List.replicate (k + 2) (DockerOp.containerInspect id) := by
    rw [← List.replicate_succ']
    rw [← List.replicate_succ]
  rw [← hrep]

theorem rollingUpdate_after_acquire (eng : Engine σ) (s : σ) (cur : InspectResponse)
    (imageRef : String) (s1 : σ) (tr1 : List DockerOp) (cid : String)
    (hacq : rollingAcquire eng s cur imageRef = (s1, tr1, Except.ok cid)) :
    ∃ s2 tr2 r2, rollingUpdateContainer eng s cur imageRef =
      (s2, tr1 ++ DockerOp.containerStop cur.id :: tr2, r2) := by
  rcases hstop : eng.containerStop s1 cur.id with ⟨s2, r2⟩
  cases r2 with
  | error e =>
    refine ⟨s2, [], Except.error (wrapErr "stop old" e), ?_⟩
    simp [rollingUpdateContainer, hacq, callContainerStop, hstop]
  | ok u =>
    rcases hrem : eng.containerRemove s2 cur.id false false with ⟨s3, r3⟩
    cases r3 with
    | error e =>
      refine ⟨s3, [DockerOp.containerRemove cur.id false false],
        Except.error (wrapErr "remove old" e), ?_⟩
      simp [rollingUpdateContainer, hacq, callContainerStop, hstop,
        callContainerRemove, hrem]
    | ok u2 =>
      rcases hren : eng.containerRename s3 cid (trimSlash cur.name) with ⟨s4, r4⟩
      cases r4 with
      | error e =>
        refine ⟨s4, [DockerOp.containerRemove cur.id false false,
          DockerOp.containerRename cid (trimSlash cur.name)],
          Except.error (wrapErr "rename" e), ?_⟩
        simp [rollingUpdateContainer, hacq, callContainerStop, hstop,
          callContainerRemove, hrem, callContainerRename, hren]
      | ok u3 =>
        refine ⟨s4, [DockerOp.containerRemove cur.id false false,
          DockerOp.containerRename cid (trimSlash cur.name)], Except.ok (), ?_⟩
        simp [rollingUpdateContainer, hacq, callContainerStop, hstop,
          callContainerRemove, hrem, callContainerRename, hren]

/-- C10: when a poll inspection of the replacement reports no state or no
health block although a healthcheck was initially configured, the health
wait returns success at that poll (it neither fails nor keeps waiting);
and whenever the acquisition phase of the rolling update returns success,
the rolling update proceeds to the replacement of the old container (its
next call stops the old container). -/
theorem claim_c10_missing_health :
    (∀ {σ : Type} (eng : Engine σ) (s s1 : σ) (id : String) (tmo : Nat)
      (cur0 : InspectResponse) (c : ContainerConfig) (hcfg : HealthcheckConfig),
      eng.containerInspect s id = (s1, Except.ok cur0) →
      cur0.config = some c → c.healthcheck = some hcfg →
      ∀ k, k < tmo / healthPollIntervalMs →
        (∀ j, j < k → pollNonTerminal (pollOutcome eng id s1 j) = true) →
        ∀ cur2, pollOutcome eng id s1 k = Except.ok cur2 →
          (cur2.state = none ∨ ∃ st, cur2.state = some st ∧ st.health = none) →
          waitForHealthyIfConfigured eng s id tmo =
            (iterInsp eng id (k + 1) s1,
              List.replicate (k + 2) (DockerOp.containerInspect id), Except.ok ())) ∧
    (∀ {σ : Type} (eng : Engine σ) (s : σ) (cur : InspectResponse) (imageRef : String)
      (s1 : σ) (tr1 : List DockerOp) (cid : String),
      rollingAcquire eng s cur imageRef = (s1, tr1, Except.ok cid) →
      ∃ s2 tr2 r2, rollingUpdateContainer eng s cur imageRef =
        (s2, tr1 ++ DockerOp.containerStop cur.id :: tr2, r2)) := by
  constructor
  · intro σ eng s s1 id tmo cur0 c hcfg hinit hc hhc k hk hskip cur2 hpoll hmiss
    refine waitConfigured_terminal eng s s1 id tmo cur0 c hcfg k cur2 (Except.ok ())
      hinit hc hhc hk hskip hpoll ?_
    rcases hmiss with hmiss | ⟨st, hst, hh⟩
    · simp [terminalResult, hmiss]
    · simp [terminalResult, hst, hh]
  · intro σ eng s cur imageRef s1 tr1 cid hacq
    exact rollingUpdate_after_acquire eng s cur imageRef s1 tr1 cid hacq

/-- Inspection script for the C10 witness: healthcheck configured at the
initial inspection, no state block at the first poll. -/
def c10f : Nat → Except GoError InspectResponse :=
  fun n => if n == 0 then Except.ok (respWith (some hcConfig) none)
    else Except.ok (respWith (some hcConfig) none)

/-- Daemon with a counter state on which a rolling update runs through:
creation yields the fresh id n1, the replacement has no healthcheck, and
every lifecycle call succeeds. -/
def c10RollEngine : Engine Nat :=
  { containerInspect := fun n _ => (n + 1, Except.ok (respWith (some noHcConfig) none)),
    imageInspect := fun n _ => (n, Except.error (goErr "not modelled")),
    imagePull := fun n _ _ => (n, Except.error (goErr "not modelled")),
    containerList := fun n _ => (n, Except.error (goErr "not modelled")),
    containerStop := fun n _ => (n + 1, Except.ok ()),
    containerRemove := fun n _ _ _ => (n + 1, Except.ok ()),
    containerCreate := fun n _ => (n + 1, Except.ok { id := "n1", warnings := [] }),
    containerStart := fun n _ => (n + 1, Except.ok ()),
    containerRename := fun n _ _ => (n + 1, Except.ok ()),
    imageRemove := fun n _ _ _ => (n, Except.error (goErr "not modelled")) }

/-- Old container the C10 and C6 rolling witnesses update. -/
def oldCur : InspectResponse :=
  { id := "old1", name := "/web", image := "sha256:one",
    config := some { image := "img:1", labels := some [("rolling", "true")], healthcheck := none },
    hostConfig := none, state := none, networks := none }

theorem claim_c10_witness :
    waitForHealthyIfConfigured (inspectOnlyEngine c10f) 0 "cid" 30000 =
      (2, List.replicate 2 (DockerOp.containerInspect "cid"), Except.ok ()) ∧
    (∃ s2 tr2 r2, rollingUpdateContainer c10RollEngine 0 oldCur "img:2" =
      (s2, [DockerOp.containerCreate "web.next" "img:2", DockerOp.containerStart "n1",
        DockerOp.containerInspect "n1"] ++ DockerOp.containerStop "old1" :: tr2, r2)) := by
  constructor
  · exact claim_c10_missing_health.1 (inspectOnlyEngine c10f) 0 1 "cid" 30000
      (respWith (some hcConfig) none) hcConfig { test := ["CMD"] } rfl rfl rfl
      0 (by decide) (by intro j hj; exact absurd hj (Nat.not_lt_zero j))
      (respWith (some hcConfig) none) rfl (Or.inl rfl)
  · exact claim_c10_missing_health.2 c10RollEngine 0 oldCur "img:2" 3
      [DockerOp.containerCreate "web.next" "img:2", DockerOp.containerStart "n1",
        DockerOp.containerInspect "n1"] "n1" (by decide)

/- ------------------------------------------------------------------ -/
/- C6: the rolling strategy never touches the old container before the  -/
/- replacement is confirmed.                                            -/
/- ------------------------------------------------------------------ -/

/-- An API call that acts on the given container: stopping, removing or
renaming it. -/
def isOldTouching (oldID : String) : DockerOp → Bool
  | DockerOp.containerStop i => i == oldID
  | DockerOp.containerRemove i _ _ => i == oldID
  | DockerOp.containerRename i _ => i == oldID
  | _ => false

theorem waitPollLoop_trace (eng : Engine σ) (id : String) :
    ∀ (n : Nat) (s : σ) (op : DockerOp), op ∈ (waitPollLoop eng id n s).2.1 →
      op = DockerOp.containerInspect id := by
  intro n
  induction n with
  | zero =>
    intro s op h
    simp [waitPollLoop] at h
  | succ n ih =>
    intro s op h
    rcases hr : eng.containerInspect s id with ⟨s1, r⟩
    cases r with
    | error e =>
      simp [waitPollLoop, callContainerInspect, hr] at h
      exact h
    | ok cur =>
      cases hst : cur.state with
      | none =>
        simp [waitPollLoop, callContainerInspect, hr, hst] at h
        exact h
      | some st =>
        cases hh : st.health with
        | none =>
          simp [waitPollLoop, callContainerInspect, hr, hst, hh] at h
          exact h
        | some hl =>
          by_cases hhe : hl.status == "healthy"
          · simp [waitPollLoop, callContainerInspect, hr, hst, hh, hhe] at h
            exact h
          · by_cases hun : hl.status == "unhealthy"
            · simp [waitPollLoop, callContainerInspect, hr, hst, hh, hhe, hun] at h
              exact h
            · rcases w : waitPollLoop eng id n s1 with ⟨s2, tr2, res⟩
              simp [waitPollLoop, callContainerInspect, hr, hst, hh, hhe, hun, w] at h
              rcases h with h | h
              · exact h
              · exact ih s1 op (by rw [w]; exact h)

theorem waitForHealthy_trace (eng : Engine σ) (s : σ) (id : String) (tmo : Nat)
    (op : DockerOp) (h : op ∈ (waitForHealthyIfConfigured eng s id tmo).2.1) :
    op = DockerOp.containerInspect id := by
  rcases hr : eng.containerInspect s id with ⟨s1, r⟩
  cases r with
  | error e =>
    simp [waitForHealthyIfConfigured, callContainerInspect, hr] at h
    exact h
  | ok cur =>
    cases hc : cur.config with
    | none =>
      simp [waitForHealthyIfConfigured, callContainerInspect, hr, hc] at h
      exact h
    | some c =>
      cases hhc : c.healthcheck with
      | none =>
        simp [waitForHealthyIfConfigured, callContainerInspect, hr, hc, hhc] at h
        exact h
      | some hcfg =>
        rcases w : waitPollLoop eng id (tmo / healthPollIntervalMs) s1 with ⟨s2, tr2, res⟩
        simp [waitForHealthyIfConfigured, callContainerInspect, hr, hc, hhc, w] at h
        rcases h with h | h
        · exact h
        · exact waitPollLoop_trace eng id (tmo / healthPollIntervalMs) s1 op (by rw [w]; exact h)

theorem rollingAcquire_no_old (eng : Engine σ) (s : σ) (cur : InspectResponse)
    (imageRef : String)
    (hfresh : ∀ (s2 : σ) (opts : CreateOptions) (s3 : σ) (resp : CreateResponse),
      eng.containerCreate s2 opts = (s3, Except.ok resp) → ¬(resp.id = cur.id)) :
    ∀ op ∈ (rollingAcquire eng s cur imageRef).2.1, isOldTouching cur.id op = false := by
  intro op hop
  cases hcc : cur.config with
  | none =>
    simp [rollingAcquire, hcc] at hop
  | some c0 =>
    rcases hcr : eng.containerCreate s (rollingCreateOpts cur c0 imageRef) with ⟨sc, rc⟩
    cases rc with
    | error e =>
      simp [rollingAcquire, hcc, callContainerCreate, hcr] at hop
      subst hop
      rfl
    | ok created =>
      have hid : (created.id == cur.id) = false := by
        simpa [beq_iff_eq] using hfresh s (rollingCreateOpts cur c0 imageRef) sc created hcr
      rcases hst : eng.containerStart sc created.id with ⟨ss, rs⟩
      cases rs with
      | error e =>
        rcases hfr : eng.containerRemove ss created.id true false with ⟨sf, rf⟩
        simp [rollingAcquire, hcc, callContainerCreate, hcr, callContainerStart, hst,
          callContainerRemove, hfr] at hop
        rcases hop with hop | hop | hop
        · subst hop; rfl
        · subst hop; rfl
        · subst hop; simp [isOldTouching, hid]
      | ok u =>
        rcases hw : waitForHealthyIfConfigured eng ss created.id rollingHealthTimeoutMs
          with ⟨sw, trw, rw2⟩
        cases rw2 with
        | error e =>
          rcases hfr : eng.containerRemove sw created.id true false with ⟨sf, rf⟩
          simp [rollingAcquire, hcc, callContainerCreate, hcr, callContainerStart, hst,
            hw, callContainerRemove, hfr] at hop
          rcases hop with hop | hop | hop | hop
          · subst hop; rfl
          · subst hop; rfl
          · have := waitForHealthy_trace eng ss created.id rollingHealthTimeoutMs op
              (by rw [hw]; exact hop)
            subst this; rfl
          · subst hop; simp [isOldTouching, hid]
        | ok u2 =>
          simp [rollingAcquire, hcc, callContainerCreate, hcr, callContainerStart, hst,
            hw] at hop
          rcases hop with hop | hop | hop
          · subst hop; rfl
          · subst hop; rfl
          · have := waitForHealthy_trace eng ss created.id rollingHealthTimeoutMs op
              (by rw [hw]; exact hop)
            subst this; rfl

/-- C6: in every rolling-replace execution against a daemon handing out
fresh container ids, an acquisition failure (create, start or health
phase) makes the whole update fail with the same error and a trace in
which no stop, remove or rename ever targets the old container, and when
the start was attempted and the acquisition still failed the last call
force-removes the replacement (a container other than the old one); when
the acquisition succeeds, everything before the takeover leaves the old
container untouched and the update continues beyond the acquisition
trace. -/
theorem claim_c6_rolling_order (eng : Engine σ) (s : σ) (cur : InspectResponse)
    (imageRef : String)
    (hfresh : ∀ (s2 : σ) (opts : CreateOptions) (s3 : σ) (resp : CreateResponse),
      eng.containerCreate s2 opts = (s3, Except.ok resp) → ¬(resp.id = cur.id)) :
    (∀ s1 tr1 e, rollingAcquire eng s cur imageRef = (s1, tr1, Except.error e) →
      rollingUpdateContainer eng s cur imageRef = (s1, tr1, Except.error e) ∧
      (∀ op ∈ tr1, isOldTouching cur.id op = false) ∧
      ((∃ i, DockerOp.containerStart i ∈ tr1) →
        ∃ cid, ¬(cid = cur.id) ∧
          tr1.getLast? = some (DockerOp.containerRemove cid true false))) ∧
    (∀ s1 tr1 cid, rollingAcquire eng s cur imageRef = (s1, tr1, Except.ok cid) →
      (∀ op ∈ tr1, isOldTouching cur.id op = false) ∧
      ∃ s2 tr2 r2, rollingUpdateContainer eng s cur imageRef =
        (s2, tr1 ++ DockerOp.containerStop cur.id :: tr2, r2)) := by
  constructor
  · intro s1 tr1 e hacq
    refine ⟨by simp [rollingUpdateContainer, hacq], ?_, ?_⟩
    · intro op hop
      exact rollingAcquire_no_old eng s cur imageRef hfresh op (by rw [hacq]; exact hop)
    · rintro ⟨i, hi⟩
      cases hcc : cur.config with
      | none =>
        simp only [rollingAcquire, hcc, Prod.mk.injEq] at hacq
        obtain ⟨h1, h2, h3⟩ := hacq
        subst h2
        simp at hi
      | some c0 =>
        rcases hcr : eng.containerCreate s (rollingCreateOpts cur c0 imageRef) with ⟨sc, rc⟩
        cases rc with
        | error e2 =>
          simp [rollingAcquire, hcc, callContainerCreate, hcr, Prod.mk.injEq] at hacq
          obtain ⟨h1, h2, h3⟩ := hacq
          subst h2
          simp at hi
        | ok created =>
          have hid : ¬(created.id = cur.id) :=
            hfresh s (rollingCreateOpts cur c0 imageRef) sc created hcr
          rcases hst : eng.containerStart sc created.id with ⟨ss, rs⟩
          cases rs with
          | error e2 =>
            rcases hfr : eng.containerRemove ss created.id true false with ⟨sf, rf⟩
            simp [rollingAcquire, hcc, callContainerCreate, hcr, callContainerStart, hst,
              callContainerRemove, hfr, Prod.mk.injEq] at hacq
            obtain ⟨h1, h2, h3⟩ := hacq
            subst h2
            exact ⟨created.id, hid, by simp⟩
          | ok u =>
            rcases hw : waitForHealthyIfConfigured eng ss created.id rollingHealthTimeoutMs
              with ⟨sw, trw, rw2⟩
            cases rw2 with
            | error e2 =>
              rcases hfr : eng.containerRemove sw created.id true false with ⟨sf, rf⟩
              simp [rollingAcquire, hcc, callContainerCreate, hcr, callContainerStart, hst,
                hw, callContainerRemove, hfr, Prod.mk.injEq] at hacq
              obtain ⟨h1, h2, h3⟩ := hacq
              subst h2
              refine ⟨created.id, hid, ?_⟩
              simp only [← List.cons_append, List.getLast?_concat]
            | ok u2 =>
              simp [rollingAcquire, hcc, callContainerCreate, hcr, callContainerStart, hst,
                hw] at hacq
  · intro s1 tr1 cid hacq
    refine ⟨?_, rollingUpdate_after_acquire eng s cur imageRef s1 tr1 cid hacq⟩
    intro op hop
    exact rollingAcquire_no_old eng s cur imageRef hfresh op (by rw [hacq]; exact hop)

/-- Daemon for the C6 witness: fresh id n1 on creation, replacement
without healthcheck, all lifecycle calls succeed. -/
def c6Engine : Engine Nat :=
  { containerInspect := fun n _ => (n + 1, Except.ok (respWith (some noHcConfig) none)),
    imageInspect := fun n _ => (n, Except.error (goErr "not modelled")),
    imagePull := fun n _ _ => (n, Except.error (goErr "not modelled")),
    containerList := fun n _ => (n, Except.error (goErr "not modelled")),
    containerStop := fun n _ => (n + 1, Except.ok ()),
    containerRemove := fun n _ _ _ => (n + 1, Except.ok ()),
    containerCreate := fun n _ => (n + 1, Except.ok { id := "n1", warnings := [] }),
    containerStart := fun n _ => (n + 1, Except.ok ()),
    containerRename := fun n _ _ => (n + 1, Except.ok ()),
    imageRemove := fun n _ _ _ => (n, Except.error (goErr "not modelled")) }

theorem claim_c6_witness :
    (∀ op ∈ [DockerOp.containerCreate "web.next" "img:2", DockerOp.containerStart "n1",
      DockerOp.containerInspect "n1"], isOldTouching "old1" op = false) ∧
    ∃ s2 tr2 r2, rollingUpdateContainer c6Engine 0 oldCur "img:2" =
      (s2, [DockerOp.containerCreate "web.next" "img:2", DockerOp.containerStart "n1",
        DockerOp.containerInspect "n1"] ++ DockerOp.containerStop "old1" :: tr2, r2) := by
  have hfresh : ∀ (s2 : Nat) (opts : CreateOptions) (s3 : Nat) (resp : CreateResponse),
      c6Engine.containerCreate s2 opts = (s3, Except.ok resp) → ¬(resp.id = oldCur.id) := by
    intro s2 opts s3 resp h
    simp only [c6Engine, Prod.mk.injEq, Except.ok.injEq] at h
    obtain ⟨h1, h2⟩ := h
    subst h2
    decide
  exact (claim_c6_rolling_order c6Engine 0 oldCur "img:2" hfresh).2 3
    [DockerOp.containerCreate "web.next" "img:2", DockerOp.containerStart "n1",
      DockerOp.containerInspect "n1"] "n1" (by decide)

/- ------------------------------------------------------------------ -/
/- C5: the recreate strategy past its point of no return.              -/
/- ------------------------------------------------------------------ -/

/-- A container of the reference daemon model. -/
structure RefContainer where
  id : String
  name : String
  image : String
  running : Bool
deriving DecidableEq

/-- Reference daemon state: the containers on the host, an id counter,
and an injected fault that makes every start call fail. -/
structure RefState where
  containers : List RefContainer
  nextID : Nat
  failStart : Bool
deriving DecidableEq

/-- Reference daemon with conventional container lifecycle semantics:
stop marks a container not running, non-forced remove refuses a running
container, create refuses a taken name and allocates a fresh id, start
flips the running flag unless the injected fault fires. -/
def refEngine : Engine RefState :=
  { containerInspect := fun st _ => (st, Except.error (goErr "not modelled")),
    imageInspect := fun st _ => (st, Except.error (goErr "not modelled")),
    imagePull := fun st _ _ => (st, Except.error (goErr "not modelled")),
    containerList := fun st _ => (st, Except.error (goErr "not modelled")),
    containerStop := fun st id =>
      if st.containers.any (fun c => c.id == id) then
        let cs := st.containers.map (fun c => if c.id == id then { c with running := false } else c)
        ({ st with containers := cs }, Except.ok ())
      else (st, Except.error (goErr "No such container")),
    containerRemove := fun st id force _ =>
      match st.containers.find? (fun c => c.id == id) with
      | none => (st, Except.error (goErr "No such container"))
      | some c =>
        if c.running && !force then (st, Except.error (goErr "container is running"))
        else
          let cs := st.containers.filter (fun c2 => !(c2.id == id))
          ({ st with containers := cs }, Except.ok ()),
    containerCreate := fun st opts =>
      if st.containers.any (fun c => c.name == opts.name) then
        (st, Except.error (goErr "name conflict"))
      else
        let newC : RefContainer :=
          { id := "ctr" ++ toString st.nextID, name := opts.name,
            image := opts.config.image, running := false }
        ({ st with containers := st.containers ++ [newC], nextID := st.nextID + 1 },
          Except.ok { id := "ctr" ++ toString st.nextID, warnings := [] }),
    containerStart := fun st id =>
      if st.failStart then (st, Except.error (goErr "injected start failure"))
      else if st.containers.any (fun c => c.id == id) then
        let cs := st.containers.map (fun c => if c.id == id then { c with running := true } else c)
        ({ st with containers := cs }, Except.ok ())
      else (st, Except.error (goErr "No such container")),
    containerRename := fun st id newName =>
      let cs := st.containers.map (fun c => if c.id == id then { c with name := newName } else c)
      ({ st with containers := cs }, Except.ok ()),
    imageRemove := fun st _ _ _ => (st, Except.error (goErr "not modelled")) }

/-- Number of running containers carrying the given name. -/
def countRunningNamed (st : RefState) (name : String) : Nat :=
  (st.containers.filter (fun c => c.name == name && c.running)).length

/-- Old container updated by the C5 scenarios. -/
def c5Cur : InspectResponse :=
  { id := "old1", name := "/web", image := "sha256:one",
    config := some { image := "img:1", labels := none, healthcheck := none },
    hostConfig := none, state := none, networks := none }

/-- Host with only the old web container, and starts failing. -/
def c5FailState : RefState :=
  { containers := [{ id := "old1", name := "web", image := "img:1", running := true }],
    nextID := 0, failStart := true }

/-- Host with only the old web container, everything healthy. -/
def c5OkState : RefState :=
  { containers := [{ id := "old1", name := "web", image := "img:1", running := true }],
    nextID := 0, failStart := false }

/-- C5 counterexample: a recreate attempt against the reference daemon
passes its point of no return (the old container is removed), then the
start of the replacement fails; the attempt reports a hard failure and
the host ends with zero running containers under the original name web,
not exactly one. -/
theorem claim_c5_counterexample :
    (recreateContainer refEngine c5FailState c5Cur "img:2").2.2 =
      Except.error (goErr "start: injected start failure") ∧
    DockerOp.containerRemove "old1" false false ∈
      (recreateContainer refEngine c5FailState c5Cur "img:2").2.1 ∧
    countRunningNamed (recreateContainer refEngine c5FailState c5Cur "img:2").1 "web" = 0 := by
  refine ⟨?_, ?_, ?_⟩
  · decide
  · decide
  · decide

/-- Call classifiers used by the amended C5 statement. -/
def isCreateOp : DockerOp → Bool
  | DockerOp.containerCreate _ _ => true
  | _ => false

def isStartOp : DockerOp → Bool
  | DockerOp.containerStart _ => true
  | _ => false

/-- C5 (amended): a successful recreate performs exactly stop old, remove
old, one creation under the original name with the new image, and one
start of the created container, leaving exactly that one container
started under the original name; a failed recreate never retries (at most
one create and one start in the trace) and once a create appears in the
trace the point of no return had been passed (the trace begins with stop
and remove of the old container); after that point a failure may leave
the original name without a running container. -/
theorem claim_c5_amended (eng : Engine σ) (s : σ) (cur : InspectResponse)
    (imageRef : String) :
    (∀ s1 tr, recreateContainer eng s cur imageRef = (s1, tr, Except.ok ()) →
      ∃ cid, tr = [DockerOp.containerStop cur.id,
        DockerOp.containerRemove cur.id false false,
        DockerOp.containerCreate (trimSlash cur.name) imageRef,
        DockerOp.containerStart cid]) ∧
    (∀ s1 tr e, recreateContainer eng s cur imageRef = (s1, tr, Except.error e) →
      tr.countP isCreateOp ≤ 1 ∧ tr.countP isStartOp ≤ 1 ∧
      ((∃ nm im, DockerOp.containerCreate nm im ∈ tr) →
        tr.take 2 = [DockerOp.containerStop cur.id,
          DockerOp.containerRemove cur.id false false])) := by
  cases hcc : cur.config with
  | none =>
    constructor
    · intro s1 tr hok
      simp [recreateContainer, hcc] at hok
    · intro s1 tr e herr
      simp [recreateContainer, hcc, Prod.mk.injEq] at herr
      obtain ⟨h1, h2, h3⟩ := herr
      subst h2
      simp [List.countP_nil]
  | some c0 =>
    rcases hstop : eng.containerStop s cur.id with ⟨s1, r1⟩
    cases r1 with
    | error e1 =>
      constructor
      · intro s2 tr hok
        simp [recreateContainer, hcc, callContainerStop, hstop] at hok
      · intro s2 tr e herr
        simp [recreateContainer, hcc, callContainerStop, hstop, Prod.mk.injEq] at herr
        obtain ⟨h1, h2, h3⟩ := herr
        subst h2
        refine ⟨by simp [List.countP_cons, List.countP_nil, isCreateOp], by
          simp [List.countP_cons, List.countP_nil, isStartOp], ?_⟩
        rintro ⟨nm, im, hmem⟩
        simp at hmem
    | ok u1 =>
      rcases hrem : eng.containerRemove s1 cur.id false false with ⟨s2, r2⟩
      cases r2 with
      | error e2 =>
        constructor
        · intro s3 tr hok
          simp [recreateContainer, hcc, callContainerStop, hstop,
            callContainerRemove, hrem] at hok
        · intro s3 tr e herr
          simp [recreateContainer, hcc, callContainerStop, hstop,
            callContainerRemove, hrem, Prod.mk.injEq] at herr
          obtain ⟨h1, h2, h3⟩ := herr
          subst h2
          refine ⟨by simp [List.countP_cons, List.countP_nil, isCreateOp], by
            simp [List.countP_cons, List.countP_nil, isStartOp], ?_⟩
          rintro ⟨nm, im, hmem⟩
          simp at hmem
      | ok u2 =>
        rcases hcr : eng.containerCreate s2 (recreateCreateOpts cur c0 imageRef) with ⟨s3, r3⟩
        cases r3 with
        | error e3 =>
          constructor
          · intro s4 tr hok
            simp [recreateContainer, hcc, callContainerStop, hstop,
              callContainerRemove, hrem, callContainerCreate, hcr] at hok
          · intro s4 tr e herr
            simp [recreateContainer, hcc, callContainerStop, hstop,
              callContainerRemove, hrem, callContainerCreate, hcr, Prod.mk.injEq] at herr
            obtain ⟨h1, h2, h3⟩ := herr
            subst h2
            refine ⟨by simp [List.countP_cons, List.countP_nil, isCreateOp], by
              simp [List.countP_cons, List.countP_nil, isStartOp], ?_⟩
            intro hmem
            rfl
        | ok created =>
          rcases hst : eng.containerStart s3 created.id with ⟨s4, r4⟩
          cases r4 with
          | error e4 =>
            constructor
            · intro s5 tr hok
              simp [recreateContainer, hcc, callContainerStop, hstop,
                callContainerRemove, hrem, callContainerCreate, hcr,
                callContainerStart, hst] at hok
            · intro s5 tr e herr
              simp [recreateContainer, hcc, callContainerStop, hstop,
                callContainerRemove, hrem, callContainerCreate, hcr,
                callContainerStart, hst, Prod.mk.injEq] at herr
              obtain ⟨h1, h2, h3⟩ := herr
              subst h2
              refine ⟨by simp [List.countP_cons, List.countP_nil, isCreateOp], by
                simp [List.countP_cons, List.countP_nil, isStartOp], ?_⟩
              intro hmem
              rfl
          | ok u4 =>
            constructor
            · intro s5 tr hok
              simp [recreateContainer, hcc, callContainerStop, hstop,
                callContainerRemove, hrem, callContainerCreate, hcr,
                callContainerStart, hst, Prod.mk.injEq] at hok
              obtain ⟨h1, h2⟩ := hok
              subst h2
              exact ⟨created.id, rfl⟩
            · intro s5 tr e herr
              simp [recreateContainer, hcc, callContainerStop, hstop,
                callContainerRemove, hrem, callContainerCreate, hcr,
                callContainerStart, hst] at herr

theorem claim_c5_witness :
    ∃ cid, [DockerOp.containerStop "old1", DockerOp.containerRemove "old1" false false,
      DockerOp.containerCreate "web" "img:2", DockerOp.containerStart "ctr0"] =
      [DockerOp.containerStop "old1", DockerOp.containerRemove "old1" false false,
        DockerOp.containerCreate "web" "img:2", DockerOp.containerStart cid] := by
  exact (claim_c5_amended refEngine c5OkState c5Cur "img:2").1
    (recreateContainer refEngine c5OkState c5Cur "img:2").1
    [DockerOp.containerStop "old1", DockerOp.containerRemove "old1" false false,
      DockerOp.containerCreate "web" "img:2", DockerOp.containerStart "ctr0"]
    (by decide)

/- ------------------------------------------------------------------ -/
/- Update decision engine (part_003 lines 16 to 82).                   -/
/- ------------------------------------------------------------------ -/

/-- app.Config fields consumed by the embedded logic (the log level and
the notifier callback live outside the engine; the notifier is modelled
at the cycle level). -/
structure Config where
  interval : Nat
  cleanup : Bool
  labelEnable : Bool
  label : String
  dockerConfigPath : String
  rollingLabel : String
deriving DecidableEq

/-- Applies a Go error-wrapping function to a failed result. -/
def mapErrRes {α : Type} (r : DRes σ α) (f : GoError → GoError) : DRes σ α :=
  match r with
  | (s, tr, Except.error e) => (s, tr, Except.error (f e))
  | ok => ok

/-- Identity-gathering prefix of updateContainerIfNeeded (part_003 lines
17 to 49): inspect the container, read its configured image reference
(the Go code dereferences a nil Config, modelled as an error), fall back
to an image inspection when the container records no image identity (the
fallback error is swallowed), resolve credentials, pull, and inspect the
pulled image.  Credentials come from the resolver of cmd/auth.go, whose
contract the internal dockerauth index implements.  Returns the inspected
container, the image reference, and the old and new image identities. -/
def updateCheck (eng : Engine σ) (s : σ) (auths : AuthIndex)
    (summary : ContainerSummary) : DRes σ (InspectResponse × String × String × String) :=
  match callContainerInspect eng s summary.id with
  | (s1, tr1, Except.error e) => (s1, tr1, Except.error (wrapErr "inspect container" e))
  | (s1, tr1, Except.ok cur) =>
    match cur.config with
    | none => (s1, tr1, Except.error (goErr "nil Config"))
    | some c0 =>
      if c0.image == "" then
        (s1, tr1, Except.error (goErr "container has empty Config.Image"))
      else
        match (if cur.image == "" then
            (match callImageInspect eng s1 c0.image with
             | (s2, tr2, Except.ok img) => (s2, tr2, img.id)
             | (s2, tr2, Except.error _) => (s2, tr2, ""))
          else (s1, ([] : List DockerOp), cur.image)) with
        | (s2, tr2, oldImageID) =>
          match pullImage eng s2 c0.image (registryAuthForImageRef auths c0.image).1 with
          | (s3, tr3, Except.error e) =>
            (s3, tr1 ++ tr2 ++ tr3,
              Except.error (wrapErr ("pull " ++ quoteRef c0.image) e))
          | (s3, tr3, Except.ok _) =>
            match callImageInspect eng s3 c0.image with
            | (s4, tr4, Except.error e) =>
              (s4, tr1 ++ tr2 ++ tr3 ++ tr4,
                Except.error (wrapErr ("inspect pulled image " ++ quoteRef c0.image) e))
            | (s4, tr4, Except.ok newImg) =>
              (s4, tr1 ++ tr2 ++ tr3 ++ tr4,
                Except.ok (cur, c0.image, oldImageID, newImg.id))

/-- updateContainerIfNeeded (part_003 lines 16 to 82): after the identity
check, no update when either identity is empty or both are equal;
otherwise run the strategy selected by the eligibility policy and, when
cleanup is enabled, try to remove the old image (its outcome only
logged). -/
def updateContainerIfNeeded (eng : Engine σ) (s : σ) (auths : AuthIndex)
    (cfg : Config) (summary : ContainerSummary) : DRes σ (Bool × String) :=
  match updateCheck eng s auths summary with
  | (s1, tr1, Except.error e) => (s1, tr1, Except.error e)
  | (s1, tr1, Except.ok (cur, imageRef, oldImageID, newImageID)) =>
    if newImageID == "" || oldImageID == "" || newImageID == oldImageID then
      (s1, tr1, Except.ok (false, ""))
    else
      match (if rollingSelected cur cfg.rollingLabel then
          mapErrRes (rollingUpdateContainer eng s1 cur imageRef) (wrapErr "rolling update")
        else recreateContainer eng s1 cur imageRef) with
      | (s2, tr2, Except.error e) => (s2, tr1 ++ tr2, Except.error e)
      | (s2, tr2, Except.ok _) =>
        if cfg.cleanup then
          match cleanupOldImageIfUnused eng s2 oldImageID with
          | (s3, tr3, _) => (s3, tr1 ++ tr2 ++ tr3, Except.ok (true, newImageID))
        else (s2, tr1 ++ tr2, Except.ok (true, newImageID))

/-- Calls issued only by the two executor strategies and the cleanup
advisor, never by the decision prefix. -/
def isExecutorOp : DockerOp → Bool
  | DockerOp.containerStop _ => true
  | DockerOp.containerRemove _ _ _ => true
  | DockerOp.containerCreate _ _ => true
  | DockerOp.containerStart _ => true
  | DockerOp.containerRename _ _ => true
  | DockerOp.imageRemove _ _ _ => true
  | _ => false

theorem updateCheck_trace (eng : Engine σ) (s : σ) (auths : AuthIndex)
    (summary : ContainerSummary) :
    ∀ op ∈ (updateCheck eng s auths summary).2.1, isExecutorOp op = false := by
  intro op hop
  rcases hr : eng.containerInspect s summary.id with ⟨s1, r⟩
  cases r with
  | error e =>
    simp [updateCheck, callContainerInspect, hr] at hop
    subst hop; rfl
  | ok cur =>
    cases hcc : cur.config with
    | none =>
      simp [updateCheck, callContainerInspect, hr, hcc] at hop
      subst hop; rfl
    | some c0 =>
      by_cases hie : c0.image == ""
      · simp [updateCheck, callContainerInspect, hr, hcc, hie] at hop
        subst hop; rfl
      · by_cases hci : cur.image == ""
        · rcases hii : eng.imageInspect s1 c0.image with ⟨s2, ri⟩
          rcases hpl : eng.imagePull s2 c0.image
              (registryAuthForImageRef auths c0.image).1 with ⟨s3, rp⟩
          cases rp with
          | error e =>
            cases ri with
            | error e2 =>
              simp [updateCheck, callContainerInspect, hr, hcc, hie, hci,
                callImageInspect, hii, pullImage, callImagePull, hpl] at hop
              rcases hop with hop | hop | hop <;> (subst hop; rfl)
            | ok img =>
              simp [updateCheck, callContainerInspect, hr, hcc, hie, hci,
                callImageInspect, hii, pullImage, callImagePull, hpl] at hop
              rcases hop with hop | hop | hop <;> (subst hop; rfl)
          | ok u =>
            rcases hni : eng.imageInspect s3 c0.image with ⟨s4, rn⟩
            cases ri with
            | error e2 =>
              cases rn with
              | error e3 =>
                simp [updateCheck, callContainerInspect, hr, hcc, hie, hci,
                  callImageInspect, hii, pullImage, callImagePull, hpl, hni] at hop
                rcases hop with hop | hop | hop | hop <;> (subst hop; rfl)
              | ok newImg =>
                simp [updateCheck, callContainerInspect, hr, hcc, hie, hci,
                  callImageInspect, hii, pullImage, callImagePull, hpl, hni] at hop
                rcases hop with hop | hop | hop | hop <;> (subst hop; rfl)
            | ok img =>
              cases rn with
              | error e3 =>
                simp [updateCheck, callContainerInspect, hr, hcc, hie, hci,
                  callImageInspect, hii, pullImage, callImagePull, hpl, hni] at hop
                rcases hop with hop | hop | hop | hop <;> (subst hop; rfl)
              | ok newImg =>
                simp [updateCheck, callContainerInspect, hr, hcc, hie, hci,
                  callImageInspect, hii, pullImage, callImagePull, hpl, hni] at hop
                rcases hop with hop | hop | hop | hop <;> (subst hop; rfl)
        · rcases hpl : eng.imagePull s1 c0.image
              (registryAuthForImageRef auths c0.image).1 with ⟨s3, rp⟩
          cases rp with
          | error e =>
            simp [updateCheck, callContainerInspect, hr, hcc, hie, hci,
              pullImage, callImagePull, hpl] at hop
            rcases hop with hop | hop <;> (subst hop; rfl)
          | ok u =>
            rcases hni : eng.imageInspect s3 c0.image with ⟨s4, rn⟩
            cases rn with
            | error e3 =>
              simp [updateCheck, callContainerInspect, hr, hcc, hie, hci,
                pullImage, callImagePull, hpl, callImageInspect, hni] at hop
              rcases hop with hop | hop | hop <;> (subst hop; rfl)
            | ok newImg =>
              simp [updateCheck, callContainerInspect, hr, hcc, hie, hci,
                pullImage, callImagePull, hpl, callImageInspect, hni] at hop
              rcases hop with hop | hop | hop <;> (subst hop; rfl)

theorem updateCheck_ok_config (eng : Engine σ) (s s1 : σ) (auths : AuthIndex)
    (summary : ContainerSummary) (tr1 : List DockerOp) (cur : InspectResponse)
    (imageRef oldID newID : String)
    (h : updateCheck eng s auths summary = (s1, tr1, Except.ok (cur, imageRef, oldID, newID))) :
    ∃ c0, cur.config = some c0 ∧ c0.image = imageRef := by
  rcases hr : eng.containerInspect s summary.id with ⟨sa, r⟩
  cases r with
  | error e =>
    simp [updateCheck, callContainerInspect, hr] at h
  | ok cur2 =>
    cases hcc : cur2.config with
    | none =>
      simp [updateCheck, callContainerInspect, hr, hcc] at h
    | some c0 =>
      by_cases hie : c0.image == ""
      · simp [updateCheck, callContainerInspect, hr, hcc, hie] at h
      · by_cases hci : cur2.image == ""
        · rcases hii : eng.imageInspect sa c0.image with ⟨s2, ri⟩
          rcases hpl : eng.imagePull s2 c0.image
              (registryAuthForImageRef auths c0.image).1 with ⟨s3, rp⟩
          cases rp with
          | error e =>
            cases ri with
            | error e2 =>
              simp [updateCheck, callContainerInspect, hr, hcc, hie, hci,
                callImageInspect, hii, pullImage, callImagePull, hpl] at h
            | ok img =>
              simp [updateCheck, callContainerInspect, hr, hcc, hie, hci,
                callImageInspect, hii, pullImage, callImagePull, hpl] at h
          | ok u =>
            rcases hni : eng.imageInspect s3 c0.image with ⟨s4, rn⟩
            cases rn with
            | error e3 =>
              cases ri with
              | error e2 =>
                simp [updateCheck, callContainerInspect, hr, hcc, hie, hci,
                  callImageInspect, hii, pullImage, callImagePull, hpl, hni] at h
              | ok img =>
                simp [updateCheck, callContainerInspect, hr, hcc, hie, hci,
                  callImageInspect, hii, pullImage, callImagePull, hpl, hni] at h
            | ok newImg =>
              cases ri with
              | error e2 =>
                simp [updateCheck, callContainerInspect, hr, hcc, hie, hci,
                  callImageInspect, hii, pullImage, callImagePull, hpl, hni,
                  Prod.mk.injEq] at h
                obtain ⟨h1, h2, h3, h4, h5, h6⟩ := h
                subst h3
                exact ⟨c0, hcc, h4⟩
              | ok img =>
                simp [updateCheck, callContainerInspect, hr, hcc, hie, hci,
                  callImageInspect, hii, pullImage, callImagePull, hpl, hni,
                  Prod.mk.injEq] at h
                obtain ⟨h1, h2, h3, h4, h5, h6⟩ := h
                subst h3
                exact ⟨c0, hcc, h4⟩
        · rcases hpl : eng.imagePull sa c0.image
              (registryAuthForImageRef auths c0.image).1 with ⟨s3, rp⟩
          cases rp with
          | error e =>
            simp [updateCheck, callContainerInspect, hr, hcc, hie, hci,
              pullImage, callImagePull, hpl] at h
          | ok u =>
            rcases hni : eng.imageInspect s3 c0.image with ⟨s4, rn⟩
            cases rn with
            | error e3 =>
              simp [updateCheck, callContainerInspect, hr, hcc, hie, hci,
                pullImage, callImagePull, hpl, callImageInspect, hni] at h
            | ok newImg =>
              simp [updateCheck, callContainerInspect, hr, hcc, hie, hci,
                pullImage, callImagePull, hpl, callImageInspect, hni,
                Prod.mk.injEq] at h
              obtain ⟨h1, h2, h3, h4, h5, h6⟩ := h
              subst h3
              exact ⟨c0, hcc, h4⟩

theorem rollingAcquire_head (eng : Engine σ) (s : σ) (cur : InspectResponse)
    (imageRef : String) (c0 : ContainerConfig) (hcc : cur.config = some c0) :
    ∃ rest, (rollingAcquire eng s cur imageRef).2.1 =
      DockerOp.containerCreate (trimSlash cur.name ++ ".next") imageRef :: rest := by
  have hname : (rollingCreateOpts cur c0 imageRef).name = trimSlash cur.name ++ ".next" := rfl
  have himage : (rollingCreateOpts cur c0 imageRef).config.image = imageRef := rfl
  rcases hcr : eng.containerCreate s (rollingCreateOpts cur c0 imageRef) with ⟨sc, rc⟩
  cases rc with
  | error e =>
    exact ⟨[], by simp [rollingAcquire, hcc, callContainerCreate, hcr, hname, himage]⟩
  | ok created =>
    rcases hst : eng.containerStart sc created.id with ⟨ss, rs⟩
    cases rs with
    | error e =>
      rcases hfr : eng.containerRemove ss created.id true false with ⟨sf, rf⟩
      exact ⟨[DockerOp.containerStart created.id,
        DockerOp.containerRemove created.id true false],
        by simp [rollingAcquire, hcc, callContainerCreate, hcr, callContainerStart, hst,
          callContainerRemove, hfr, hname, himage]⟩
    | ok u =>
      rcases hw : waitForHealthyIfConfigured eng ss created.id rollingHealthTimeoutMs
        with ⟨sw, trw, rw2⟩
      cases rw2 with
      | error e =>
        rcases hfr : eng.containerRemove sw created.id true false with ⟨sf, rf⟩
        exact ⟨DockerOp.containerStart created.id ::
          (trw ++ [DockerOp.containerRemove created.id true false]),
          by simp [rollingAcquire, hcc, callContainerCreate, hcr, callContainerStart, hst,
            hw, callContainerRemove, hfr, hname, himage]⟩
      | ok u2 =>
        exact ⟨DockerOp.containerStart created.id :: trw,
          by simp [rollingAcquire, hcc, callContainerCreate, hcr, callContainerStart, hst,
            hw, hname, himage]⟩

theorem rollingUpdate_head (eng : Engine σ) (s : σ) (cur : InspectResponse)
    (imageRef : String) (c0 : ContainerConfig) (hcc : cur.config = some c0) :
    ∃ rest, (rollingUpdateContainer eng s cur imageRef).2.1 =
      DockerOp.containerCreate (trimSlash cur.name ++ ".next") imageRef :: rest := by
  obtain ⟨rest, hres⟩ := rollingAcquire_head eng s cur imageRef c0 hcc
  rcases hacq : rollingAcquire eng s cur imageRef with ⟨s1, tr1, r⟩
  rw [hacq] at hres
  simp only at hres
  subst hres
  cases r with
  | error e =>
    exact ⟨rest, by simp [rollingUpdateContainer, hacq]⟩
  | ok cid =>
    obtain ⟨s2, tr2, r2, heq⟩ := rollingUpdate_after_acquire eng s cur imageRef s1 _ cid hacq
    refine ⟨rest ++ DockerOp.containerStop cur.id :: tr2, ?_⟩
    rw [heq]
    simp

theorem recreate_head (eng : Engine σ) (s : σ) (cur : InspectResponse)
    (imageRef : String) (c0 : ContainerConfig) (hcc : cur.config = some c0) :
    ∃ rest, (recreateContainer eng s cur imageRef).2.1 =
      DockerOp.containerStop cur.id :: rest := by
  have hname : (recreateCreateOpts cur c0 imageRef).name = trimSlash cur.name := rfl
  have himage : (recreateCreateOpts cur c0 imageRef).config.image = imageRef := rfl
  rcases hstop : eng.containerStop s cur.id with ⟨s1, r1⟩
  cases r1 with
  | error e =>
    exact ⟨[], by simp [recreateContainer, hcc, callContainerStop, hstop]⟩
  | ok u1 =>
    rcases hrem : eng.containerRemove s1 cur.id false false with ⟨s2, r2⟩
    cases r2 with
    | error e =>
      exact ⟨[DockerOp.containerRemove cur.id false false],
        by simp [recreateContainer, hcc, callContainerStop, hstop,
          callContainerRemove, hrem]⟩
    | ok u2 =>
      rcases hcr : eng.containerCreate s2 (recreateCreateOpts cur c0 imageRef) with ⟨s3, r3⟩
      cases r3 with
      | error e =>
        exact ⟨[DockerOp.containerRemove cur.id false false,
          DockerOp.containerCreate (trimSlash cur.name) imageRef],
          by simp [recreateContainer, hcc, callContainerStop, hstop,
            callContainerRemove, hrem, callContainerCreate, hcr, hname, himage]⟩
      | ok created =>
        rcases hst : eng.containerStart s3 created.id with ⟨s4, r4⟩
        cases r4 with
        | error e =>
          exact ⟨[DockerOp.containerRemove cur.id false false,
            DockerOp.containerCreate (trimSlash cur.name) imageRef,
            DockerOp.containerStart created.id],
            by simp [recreateContainer, hcc, callContainerStop, hstop,
              callContainerRemove, hrem, callContainerCreate, hcr,
              callContainerStart, hst, hname, himage]⟩
        | ok u4 =>
          exact ⟨[DockerOp.containerRemove cur.id false false,
            DockerOp.containerCreate (trimSlash cur.name) imageRef,
            DockerOp.containerStart created.id],
            by simp [recreateContainer, hcc, callContainerStop, hstop,
              callContainerRemove, hrem, callContainerCreate, hcr,
              callContainerStart, hst, hname, himage]⟩

/-- C1: whenever the identity-gathering prefix ends with identities
(old, new), that prefix issued no executor call; if new is empty, old is
empty, or they are equal, updateContainerIfNeeded returns false (no
update) with exactly that prefix trace, invoking neither strategy; if
both are non-empty and unequal, the update proceeds and its very next
call after the prefix is the first call of the selected strategy (the
temporary-name creation for rolling, the stop of the old container for
recreate). -/
theorem claim_c1_update_decision (eng : Engine σ) (s s1 : σ) (auths : AuthIndex)
    (cfg : Config) (summary : ContainerSummary) (tr1 : List DockerOp)
    (cur : InspectResponse) (imageRef oldID newID : String)
    (hchk : updateCheck eng s auths summary =
      (s1, tr1, Except.ok (cur, imageRef, oldID, newID))) :
    (∀ op ∈ tr1, isExecutorOp op = false) ∧
    ((newID = "" ∨ oldID = "" ∨ newID = oldID) →
      updateContainerIfNeeded eng s auths cfg summary = (s1, tr1, Except.ok (false, ""))) ∧
    (¬(newID = "" ∨ oldID = "" ∨ newID = oldID) →
      ∃ s2 tr2 r2, updateContainerIfNeeded eng s auths cfg summary = (s2, tr1 ++ tr2, r2) ∧
        (tr2.head? = some (DockerOp.containerCreate (trimSlash cur.name ++ ".next") imageRef) ∨
         tr2.head? = some (DockerOp.containerStop cur.id))) := by
  refine ⟨?_, ?_, ?_⟩
  · intro op hop
    exact updateCheck_trace eng s auths summary op (by rw [hchk]; exact hop)
  · intro hcond
    have hb : (newID == "" || oldID == "" || newID == oldID) = true := by
      rcases hcond with h | h | h <;> simp [h]
    simp [updateContainerIfNeeded, hchk, hb]
  · intro hcond
    push_neg at hcond
    obtain ⟨h1, h2, h3⟩ := hcond
    have hb : (newID == "" || oldID == "" || newID == oldID) = false := by
      simp [beq_iff_eq, h1, h2, h3]
    obtain ⟨c0, hcc, himg⟩ := updateCheck_ok_config eng s s1 auths summary tr1 cur
      imageRef oldID newID hchk
    cases hsel : rollingSelected cur cfg.rollingLabel with
    | true =>
      obtain ⟨rest, hhead⟩ := rollingUpdate_head eng s1 cur imageRef c0 hcc
      rcases hre : rollingUpdateContainer eng s1 cur imageRef with ⟨s2, tr2a, r⟩
      rw [hre] at hhead
      simp only at hhead
      subst hhead
      cases r with
      | error e =>
        refine ⟨s2, DockerOp.containerCreate (trimSlash cur.name ++ ".next") imageRef :: rest,
          Except.error (wrapErr "rolling update" e), ?_, Or.inl rfl⟩
        simp [updateContainerIfNeeded, hchk, hb, hsel, mapErrRes, hre]
      | ok u =>
        cases hcl : cfg.cleanup with
        | true =>
          rcases hclean : cleanupOldImageIfUnused eng s2 oldID with ⟨s3, tr3, rc⟩
          refine ⟨s3, (DockerOp.containerCreate (trimSlash cur.name ++ ".next") imageRef ::
            rest) ++ tr3, Except.ok (true, newID), ?_, Or.inl rfl⟩
          simp [updateContainerIfNeeded, hchk, hb, hsel, mapErrRes, hre, hcl, hclean]
        | false =>
          refine ⟨s2, DockerOp.containerCreate (trimSlash cur.name ++ ".next") imageRef :: rest,
            Except.ok (true, newID), ?_, Or.inl rfl⟩
          simp [updateContainerIfNeeded, hchk, hb, hsel, mapErrRes, hre, hcl]
    | false =>
      obtain ⟨rest, hhead⟩ := recreate_head eng s1 cur imageRef c0 hcc
      rcases hre : recreateContainer eng s1 cur imageRef with ⟨s2, tr2a, r⟩
      rw [hre] at hhead
      simp only at hhead
      subst hhead
      cases r with
      | error e =>
        refine ⟨s2, DockerOp.containerStop cur.id :: rest, Except.error e, ?_, Or.inr rfl⟩
        simp [updateContainerIfNeeded, hchk, hb, hsel, hre]
      | ok u =>
        cases hcl : cfg.cleanup with
        | true =>
          rcases hclean : cleanupOldImageIfUnused eng s2 oldID with ⟨s3, tr3, rc⟩
          refine ⟨s3, (DockerOp.containerStop cur.id :: rest) ++ tr3,
            Except.ok (true, newID), ?_, Or.inr rfl⟩
          simp [updateContainerIfNeeded, hchk, hb, hsel, hre, hcl, hclean]
        | false =>
          refine ⟨s2, DockerOp.containerStop cur.id :: rest,
            Except.ok (true, newID), ?_, Or.inr rfl⟩
          simp [updateContainerIfNeeded, hchk, hb, hsel, hre, hcl]

/-- Container observed by the C1 witness scenario: the pulled image
resolves to the identity the container already runs. -/
def c1Cur : InspectResponse :=
  { id := "old1", name := "/web", image := "sha256:aaa",
    config := some { image := "nginx", labels := none, healthcheck := none },
    hostConfig := none, state := none, networks := none }

/-- Daemon for the C1 witness: inspection, pull and image inspection all
succeed and the pulled image identity equals the recorded one. -/
def c1Engine : Engine Nat :=
  { containerInspect := fun n _ => (n + 1, Except.ok c1Cur),
    imageInspect := fun n _ => (n + 1, Except.ok { id := "sha256:aaa" }),
    imagePull := fun n _ _ => (n + 1, Except.ok ()),
    containerList := fun n _ => (n, Except.error (goErr "not modelled")),
    containerStop := fun n _ => (n, Except.error (goErr "not modelled")),
    containerRemove := fun n _ _ _ => (n, Except.error (goErr "not modelled")),
    containerCreate := fun n _ => (n, Except.error (goErr "not modelled")),
    containerStart := fun n _ => (n, Except.error (goErr "not modelled")),
    containerRename := fun n _ _ => (n, Except.error (goErr "not modelled")),
    imageRemove := fun n _ _ _ => (n, Except.error (goErr "not modelled")) }

def c1Cfg : Config :=
  { interval := 30, cleanup := true, labelEnable := false, label := "",
    dockerConfigPath := "", rollingLabel := "rolling" }

def c1Sum : ContainerSummary :=
  { id := "old1", names := ["/web"], imageID := "sha256:aaa" }

theorem claim_c1_witness :
    updateContainerIfNeeded c1Engine 0 [] c1Cfg c1Sum =
      (3, [DockerOp.containerInspect "old1", DockerOp.imagePull "nginx" "",
        DockerOp.imageInspect "nginx"], Except.ok (false, "")) := by
  exact (claim_c1_update_decision c1Engine 0 3 [] c1Cfg c1Sum
    [DockerOp.containerInspect "old1", DockerOp.imagePull "nginx" "",
      DockerOp.imageInspect "nginx"]
    c1Cur "nginx" "sha256:aaa" "sha256:aaa" (by decide)).2.1
    (Or.inr (Or.inr rfl))

/- ------------------------------------------------------------------ -/
/- Cycle aggregation and notification (run.go lines 43 to 139).        -/
/- ------------------------------------------------------------------ -/

/-- Display reference of a container (internal/app containerRef). -/
structure ContainerRef where
  name : String
  id : String
deriving DecidableEq

/-- containerRefFromSummary. -/
def containerRefFromSummary (c : ContainerSummary) : ContainerRef :=
  match c.names with
  | [] => { name := "<unknown>", id := shortID c.id }
  | n :: _ => { name := shortName n, id := shortID c.id }

inductive LogLevel where
  | debug
  | info
  | warn
  | error
deriving DecidableEq

/-- notifyRef (run.go lines 97 to 100). -/
structure NotifyRef where
  name : String
  info : String
deriving DecidableEq

/-- html.EscapeString on one character. -/
def htmlEscapeChar (c : Char) : String :=
  if c = '&' then "&amp;"
  else if c = Char.ofNat 39 then "&#39;"
  else if c = '<' then "&lt;"
  else if c = '>' then "&gt;"
  else if c = Char.ofNat 34 then "&#34;"
  else String.mk [c]

/-- html.EscapeString. -/
def htmlEscapeString (s : String) : String :=
  String.join (s.data.map htmlEscapeChar)

/-- One entry of writeRefList (run.go lines 119 to 139). -/
def refEntry (infoAsBlock : Bool) (ref : NotifyRef) : String :=
  let name := if ref.name == "" then "<noname>" else ref.name
  let base := "\n• <code>" ++ htmlEscapeString name ++ "</code>"
  if ref.info == "" then base
  else
    let info := htmlEscapeString (strTrim ref.info)
    if infoAsBlock then base ++ "\n<pre>" ++ info ++ "</pre>"
    else base ++ " – <code>" ++ info ++ "</code>"

/-- writeRefList: the blank separator line precedes every entry but the
first when blankLineBetween is set. -/
def writeRefListAux (infoAsBlock blankLineBetween : Bool) :
    List NotifyRef → Bool → String
  | [], _ => ""
  | r :: rest, isFirst =>
    (if !isFirst && blankLineBetween then "\n" else "") ++ refEntry infoAsBlock r ++
      writeRefListAux infoAsBlock blankLineBetween rest false

/-- buildNotificationMessage (run.go lines 102 to 117). -/
def buildNotificationMessage (updatedRefs failedRefs : List NotifyRef) : String :=
  let b0 := "<b>Up-to-date</b>"
  let b1 :=
    if updatedRefs.length > 0 then
      b0 ++ "\n\n✅ Updated:\n" ++ writeRefListAux false false updatedRefs true
    else b0
  if failedRefs.length > 0 then
    (if b1.length > 0 then b1 ++ "\n\n" else b1) ++ "❌ Failed:\n" ++
      writeRefListAux true true failedRefs true
  else b1

/-- Aggregation state of one cycle (counters, lists, log records). -/
structure CycleAgg where
  updated : Nat
  failed : Nat
  updatedRefs : List NotifyRef
  failedRefs : List NotifyRef
  logs : List (LogLevel × String)
deriving DecidableEq

def emptyAgg : CycleAgg :=
  { updated := 0, failed := 0, updatedRefs := [], failedRefs := [], logs := [] }

/-- Loop body of runOnce (run.go lines 58 to 77): an error is logged and
counted, and surfaces in the notification list only when the classifier
deems it non-transient; a performed update is counted and listed with its
short identity (unknown when empty). -/
def cycleStep (ref : ContainerRef) (r : Except GoError (Bool × String))
    (a : CycleAgg) : CycleAgg :=
  match r with
  | Except.error e =>
    let log1 := (LogLevel.error, "update error: " ++ e.msg)
    let a1 := { a with failed := a.failed + 1, logs := a.logs ++ [log1] }
    if isTransientError (some e) then a1
    else { a1 with failedRefs := a1.failedRefs ++ [{ name := ref.name, info := e.msg }] }
  | Except.ok (wasUpdated, newImageID) =>
    if wasUpdated then
      let info0 := shortID newImageID
      let info1 := if info0 == "" then "unknown" else info0
      let newRefs := a.updatedRefs ++ [{ name := ref.name, info := info1 }]
      { a with updated := a.updated + 1, updatedRefs := newRefs }
    else a

/-- Sequential evaluation of the containers of one cycle, threading the
daemon state as the loop of run.go does through its engine calls. -/
def cycleLoop (evalC : σ → ContainerSummary → σ × Except GoError (Bool × String)) :
    σ → List ContainerSummary → CycleAgg → σ × CycleAgg
  | s, [], a => (s, a)
  | s, c :: rest, a =>
    match evalC s c with
    | (s1, r) => cycleLoop evalC s1 rest (cycleStep (containerRefFromSummary c) r a)

/-- The per-container outcomes of a cycle, in evaluation order. -/
def scanResults (evalC : σ → ContainerSummary → σ × Except GoError (Bool × String)) :
    σ → List ContainerSummary → List (ContainerSummary × Except GoError (Bool × String))
  | _, [] => []
  | s, c :: rest =>
    match evalC s c with
    | (s1, r) => (c, r) :: scanResults evalC s1 rest

/-- Report of one cycle: the scanned count, the aggregate, and the
notification text if one was sent. -/
structure CycleReport where
  scanned : Nat
  agg : CycleAgg
  notified : Option String
deriving DecidableEq

/-- runOnce (run.go lines 43 to 95) with the per-container evaluation
abstracted (the program passes updateContainerIfNeeded applied to the
engine): aggregate all outcomes, then send one notification iff a
notifier is configured and either list is non-empty. -/
def runOnceWith (evalC : σ → ContainerSummary → σ × Except GoError (Bool × String))
    (s : σ) (containers : List ContainerSummary) (hasNotify : Bool) : σ × CycleReport :=
  match cycleLoop evalC s containers emptyAgg with
  | (s1, a) =>
    (s1,
      { scanned := containers.length, agg := a,
        notified :=
          if hasNotify && (a.updatedRefs.length > 0 || a.failedRefs.length > 0) then
            some (buildNotificationMessage a.updatedRefs a.failedRefs)
          else none })

/-- Whether an outcome is a failure. -/
def outcomeIsErr : Except GoError (Bool × String) → Bool
  | Except.error _ => true
  | _ => false

/-- The error of a failed outcome. -/
def exceptErr : Except GoError (Bool × String) → Option GoError
  | Except.error e => some e
  | _ => none

/-- The notification entry an outcome contributes to the failed list. -/
def outcomeFailRef (c : ContainerSummary) :
    Except GoError (Bool × String) → Option NotifyRef
  | Except.error e =>
    if isTransientError (some e) then none
    else some { name := (containerRefFromSummary c).name, info := e.msg }
  | _ => none

/-- The log record an outcome contributes. -/
def outcomeLog : Except GoError (Bool × String) → Option (LogLevel × String)
  | Except.error e => some (LogLevel.error, "update error: " ++ e.msg)
  | _ => none

/-- The notification entry an outcome contributes to the updated list. -/
def outcomeUpdRef (c : ContainerSummary) :
    Except GoError (Bool × String) → Option NotifyRef
  | Except.ok (wasUpdated, newImageID) =>
    if wasUpdated then
      let info := if shortID newImageID == "" then "unknown" else shortID newImageID
      some { name := (containerRefFromSummary c).name, info := info }
    else none
  | _ => none

theorem cycleLoop_parts
    (evalC : σ → ContainerSummary → σ × Except GoError (Bool × String)) :
    ∀ (cs : List ContainerSummary) (s : σ) (a : CycleAgg),
      (cycleLoop evalC s cs a).2.failed =
        a.failed + ((scanResults evalC s cs).filter (fun p => outcomeIsErr p.2)).length ∧
      (cycleLoop evalC s cs a).2.failedRefs =
        a.failedRefs ++ (scanResults evalC s cs).filterMap (fun p => outcomeFailRef p.1 p.2) ∧
      (cycleLoop evalC s cs a).2.logs =
        a.logs ++ (scanResults evalC s cs).filterMap (fun p => outcomeLog p.2) ∧
      (cycleLoop evalC s cs a).2.updatedRefs =
        a.updatedRefs ++ (scanResults evalC s cs).filterMap (fun p => outcomeUpdRef p.1 p.2) := by
  intro cs
  induction cs with
  | nil =>
    intro s a
    simp [cycleLoop, scanResults]
  | cons c rest ih =>
    intro s a
    rcases he : evalC s c with ⟨s1, r⟩
    obtain ⟨ih1, ih2, ih3, ih4⟩ := ih s1 (cycleStep (containerRefFromSummary c) r a)
    have hloop : cycleLoop evalC s (c :: rest) a =
        cycleLoop evalC s1 rest (cycleStep (containerRefFromSummary c) r a) := by
      simp [cycleLoop, he]
    have hscan : scanResults evalC s (c :: rest) = (c, r) :: scanResults evalC s1 rest := by
      simp [scanResults, he]
    rw [hloop, hscan]
    cases r with
    | error e =>
      by_cases ht : isTransientError (some e)
      · refine ⟨?_, ?_, ?_, ?_⟩
        · rw [ih1]
          simp [cycleStep, ht, outcomeIsErr, List.filter_cons]
          omega
        · rw [ih2]
          simp [cycleStep, ht, outcomeFailRef, List.filterMap_cons]
        · rw [ih3]
          simp [cycleStep, ht, outcomeLog, List.filterMap_cons]
        · rw [ih4]
          simp [cycleStep, ht, outcomeUpdRef, List.filterMap_cons]
      · refine ⟨?_, ?_, ?_, ?_⟩
        · rw [ih1]
          simp [cycleStep, ht, outcomeIsErr, List.filter_cons]
          omega
        · rw [ih2]
          simp [cycleStep, ht, outcomeFailRef, List.filterMap_cons]
        · rw [ih3]
          simp [cycleStep, ht, outcomeLog, List.filterMap_cons]
        · rw [ih4]
          simp [cycleStep, ht, outcomeUpdRef, List.filterMap_cons]
    | ok wr =>
      rcases wr with ⟨wasUpdated, newID⟩
      cases wasUpdated with
      | true =>
        refine ⟨?_, ?_, ?_, ?_⟩
        · rw [ih1]
          simp [cycleStep, outcomeIsErr, List.filter_cons]
        · rw [ih2]
          simp [cycleStep, outcomeFailRef, List.filterMap_cons]
        · rw [ih3]
          simp [cycleStep, outcomeLog, List.filterMap_cons]
        · rw [ih4]
          simp [cycleStep, outcomeUpdRef, List.filterMap_cons]
      | false =>
        refine ⟨?_, ?_, ?_, ?_⟩
        · rw [ih1]
          simp [cycleStep, outcomeIsErr, List.filter_cons]
        · rw [ih2]
          simp [cycleStep, outcomeFailRef, List.filterMap_cons]
        · rw [ih3]
          simp [cycleStep, outcomeLog, List.filterMap_cons]
        · rw [ih4]
          simp [cycleStep, outcomeUpdRef, List.filterMap_cons]

/-- C8: a cycle reports every container as scanned; each per-container
failure is counted in the failed total and logged at error level, but
contributes an entry to the notification failed list only when the
classifier deems it non-transient; hence a cycle whose failures are all
transient still counts them while its failed list is empty and its
notification (sent only when something is listed) carries at most the
updated section. -/
theorem claim_c8_transient_suppression
    (evalC : σ → ContainerSummary → σ × Except GoError (Bool × String))
    (s : σ) (cs : List ContainerSummary) (hasNotify : Bool) :
    (runOnceWith evalC s cs hasNotify).2.scanned = cs.length ∧
    (runOnceWith evalC s cs hasNotify).2.agg.failed =
      ((scanResults evalC s cs).filter (fun p => outcomeIsErr p.2)).length ∧
    (runOnceWith evalC s cs hasNotify).2.agg.failedRefs =
      (scanResults evalC s cs).filterMap (fun p => outcomeFailRef p.1 p.2) ∧
    (runOnceWith evalC s cs hasNotify).2.agg.logs =
      (scanResults evalC s cs).filterMap (fun p => outcomeLog p.2) ∧
    ((∀ p ∈ scanResults evalC s cs,
        outcomeIsErr p.2 = true → isTransientError (exceptErr p.2) = true) →
      (runOnceWith evalC s cs hasNotify).2.agg.failedRefs = [] ∧
      (runOnceWith evalC s cs hasNotify).2.notified =
        (if hasNotify && (runOnceWith evalC s cs hasNotify).2.agg.updatedRefs.length > 0 then
          some (buildNotificationMessage
            (runOnceWith evalC s cs hasNotify).2.agg.updatedRefs [])
        else none)) := by
  obtain ⟨h1, h2, h3, h4⟩ := cycleLoop_parts evalC cs s emptyAgg
  rcases hl : cycleLoop evalC s cs emptyAgg with ⟨s1, a⟩
  rw [hl] at h1 h2 h3 h4
  simp only [emptyAgg] at h1 h2 h3 h4
  have hrun : runOnceWith evalC s cs hasNotify =
      (s1,
        { scanned := cs.length, agg := a,
          notified :=
            if hasNotify && (a.updatedRefs.length > 0 || a.failedRefs.length > 0) then
              some (buildNotificationMessage a.updatedRefs a.failedRefs)
            else none }) := by
    simp [runOnceWith, hl]
  refine ⟨by rw [hrun], by rw [hrun]; simpa using h1, by rw [hrun]; simpa using h2,
    by rw [hrun]; simpa using h3, ?_⟩
  intro hall
  have hnil : a.failedRefs = [] := by
    have : (scanResults evalC s cs).filterMap (fun p => outcomeFailRef p.1 p.2) = [] := by
      rw [List.filterMap_eq_nil_iff]
      intro p hp
      cases hr : p.2 with
      | error e =>
        have ht := hall p hp (by simp [outcomeIsErr, hr])
        rw [hr] at ht
        simp [exceptErr] at ht
        simp [outcomeFailRef, ht]
      | ok v =>
        rcases v with ⟨w, nid⟩
        simp [outcomeFailRef]
    simpa [this] using h2
  constructor
  · rw [hrun]
    simpa using hnil
  · rw [hrun]
    simp [hnil]

/-- Container of the C8 witness cycle. -/
def c8Sum : ContainerSummary :=
  { id := "t1", names := ["/api"], imageID := "sha256:ccc" }

/-- Evaluation whose only failure is a network timeout, a transient
error. -/
def c8Eval : Unit → ContainerSummary → Unit × Except GoError (Bool × String) :=
  fun _ c =>
    ((), if c.id == "t1" then Except.error (goErr "dial tcp: i/o timeout")
      else Except.ok (true, "sha256:bbb"))

theorem claim_c8_witness :
    (runOnceWith c8Eval () [c8Sum] true).2.agg.failed = 1 ∧
    (runOnceWith c8Eval () [c8Sum] true).2.agg.failedRefs = [] ∧
    (runOnceWith c8Eval () [c8Sum] true).2.notified = none := by
  have h := claim_c8_transient_suppression c8Eval () [c8Sum] true
  refine ⟨?_, (h.2.2.2.2 (by decide)).1, ?_⟩
  · rw [h.2.1]
    decide
  · rw [(h.2.2.2.2 (by decide)).2]
    decide

/- ------------------------------------------------------------------ -/
/- Cycle scheduler (run.go lines 16 to 41).                            -/
/- ------------------------------------------------------------------ -/

/-- A Go context as the scheduler observes it: whether Done or Err report
cancellation at each successive observation instant. -/
structure GoContext where
  doneAt : Nat → Bool

/-- context.WithoutCancel (run.go line 17): a context that never reports
cancellation, handed to every cycle so daemon operations are not
interrupted by shutdown. -/
def withoutCancel (_ : GoContext) : GoContext :=
  { doneAt := fun _ => false }

/-- Outcome of one select of the scheduler loop: the context done channel
fired while idle, or the interval ticker fired. -/
inductive SchedEvent where
  | ctxDone
  | tick

/-- Observable scheduler actions: running one full cycle with the given
operation context, or waiting on the timer. -/
inductive SchedAction where
  | runCycle (opCtx : GoContext)
  | waitTimer

/-- Loop of Run (run.go lines 28 to 40): wait on the select; on ctx.Done
stop; on a tick run a cycle with the non-cancellable context and stop
when ctx.Err reports cancellation right after it. -/
def runSchedLoop (ctx : GoContext) (opCtx : GoContext) :
    List SchedEvent → Nat → List SchedAction
  | [], _ => []
  | SchedEvent.ctxDone :: _, _ => [SchedAction.waitTimer]
  | SchedEvent.tick :: rest, n =>
    SchedAction.waitTimer :: SchedAction.runCycle opCtx ::
      (if ctx.doneAt n then [] else runSchedLoop ctx opCtx rest (n + 1))

/-- Run (run.go lines 16 to 41): derive the non-cancellable operation
context, run one cycle immediately, stop if cancellation is already
observed, then loop on the ticker.  doneAt n models the ctx.Err check
performed right after the (n+1)-th cycle; the event list models the
successive select outcomes. -/
def runSched (ctx : GoContext) (events : List SchedEvent) : List SchedAction :=
  let opCtx := withoutCancel ctx
  SchedAction.runCycle opCtx ::
    (if ctx.doneAt 0 then [] else runSchedLoop ctx opCtx events 1)

theorem runSchedLoop_cycles (ctx opCtx : GoContext) :
    ∀ (events : List SchedEvent) (n : Nat) (c : GoContext),
      SchedAction.runCycle c ∈ runSchedLoop ctx opCtx events n → c = opCtx := by
  intro events
  induction events with
  | nil =>
    intro n c h
    simp [runSchedLoop] at h
  | cons e rest ih =>
    intro n c h
    cases e with
    | ctxDone =>
      simp [runSchedLoop] at h
    | tick =>
      simp only [runSchedLoop, List.mem_cons] at h
      rcases h with h | h | h
      · cases h
      · injection h with h2
      · by_cases hd : ctx.doneAt n
        · rw [if_pos hd] at h
          simp at h
        · rw [if_neg hd] at h
          exact ih (n + 1) c h

/-- C9: the scheduler runs one full cycle first (the head action is a
cycle, before any timer wait); every cycle it ever runs receives the
derived operation context, which never reports cancellation at any
instant, so an in-flight cycle completes with its daemon operations
undisturbed by shutdown; cancellation observed right after a cycle ends
the loop with no further action; and a done signal while idle ends the
loop right after the wait, before any further cycle. -/
theorem claim_c9_scheduler (ctx : GoContext) (events : List SchedEvent) :
    (runSched ctx events).head? = some (SchedAction.runCycle (withoutCancel ctx)) ∧
    (∀ c, SchedAction.runCycle c ∈ runSched ctx events → ∀ t, c.doneAt t = false) ∧
    (ctx.doneAt 0 = true → runSched ctx events = [SchedAction.runCycle (withoutCancel ctx)]) ∧
    (∀ rest, events = SchedEvent.ctxDone :: rest → ctx.doneAt 0 = false →
      runSched ctx events =
        [SchedAction.runCycle (withoutCancel ctx), SchedAction.waitTimer]) := by
  refine ⟨rfl, ?_, ?_, ?_⟩
  · intro c hc t
    simp only [runSched, List.mem_cons] at hc
    rcases hc with hc | hc
    · injection hc with h2
      rw [h2]
      rfl
    · by_cases hd : ctx.doneAt 0
      · rw [if_pos hd] at hc
        simp at hc
      · rw [if_neg hd] at hc
        have hco := runSchedLoop_cycles ctx (withoutCancel ctx) events 1 c hc
        rw [hco]
        rfl
  · intro hd
    simp [runSched, hd]
  · intro rest hev hd
    subst hev
    simp [runSched, hd, runSchedLoop]

/-- Context of the C9 witness that never cancels, and one that is already
cancelled when the first cycle finishes. -/
def c9CtxLive : GoContext := { doneAt := fun _ => false }

def c9CtxCancelled : GoContext := { doneAt := fun _ => true }

theorem claim_c9_witness :
    runSched c9CtxLive [SchedEvent.ctxDone] =
      [SchedAction.runCycle (withoutCancel c9CtxLive), SchedAction.waitTimer] ∧
    runSched c9CtxCancelled [SchedEvent.tick] =
      [SchedAction.runCycle (withoutCancel c9CtxCancelled)] := by
  constructor
  · exact (claim_c9_scheduler c9CtxLive [SchedEvent.ctxDone]).2.2.2 [] rfl rfl
  · exact (claim_c9_scheduler c9CtxCancelled [SchedEvent.tick]).2.2.1 rfl

end Up
